import Mathlib

/-!
# NSO container loader (`src/nsw/nsw.cpp`)

A shallow embedding of the NSO loading code of `nsw.cpp`:
`MakeMagic`, `PageAlignSize`, `ReadSegment`, `LoadModule` and the module loop of
`load_file`, followed by theorems about them.

Conventions of the embedding.

* `uchar` is `Fin 256`; a `std::vector<uchar>` and the contents of an input file are
  `List uchar`.
* `uint32_t`/`VAddr` values are `Nat` below `2 ^ 32`; every place where the C++ code
  converts to 32 bits is an explicit `u32` (`% 2 ^ 32`).  `std::size_t` is 64 bits wide.
* The host is little-endian (the code `memcpy`s structures out of byte buffers).
* The input layer (`open_linput`, `qlseek`, `qlread`) is a map from paths to byte
  contents; a read returns the bytes available from the seek position.
* `LZ4_decompress_safe` belongs to the bundled LZ4 library and is a parameter `lz4`:
  from the compressed bytes and the two `int` arguments it yields its `int` result and the
  bytes it stored at the start of the destination buffer.
* `std::vector::resize` with a negative `int` argument (converted to a huge `size_t`)
  throws `std::length_error`; nothing catches it, so the functions return `Option`, with
  `none` for the escaping exception.
* The two `memcpy` calls of `LoadModule` are not bounds-checked.  `beyond i` stands for
  the byte that such a copy finds at index `i` when `i` lies past the end of the vector.
-/

namespace Nsw

/-! ## Machine types -/

abbrev uchar := Fin 256

/-- Conversion to `uint32_t`. -/
def u32 (n : Nat) : Nat := n % 2 ^ 32

/-- Conversion of a `uint32_t` to `int`. -/
def toInt (n : Nat) : Int :=
  if u32 n < 2 ^ 31 then (u32 n : Int) else (u32 n : Int) - 2 ^ 32

/-- Largest value of `std::size_t`. -/
def SIZE_MAX : Nat := 2 ^ 64 - 1

/-- Little-endian `uint32_t` stored at byte offset `off` of `bs` (absent bytes read as 0). -/
def le32 (bs : List uchar) (off : Nat) : Nat :=
  (bs.getD off 0).val + (bs.getD (off + 1) 0).val * 2 ^ 8
    + (bs.getD (off + 2) 0).val * 2 ^ 16 + (bs.getD (off + 3) 0).val * 2 ^ 24

/-- The effect of `std::vector<uchar>::resize(n)`: truncate, or pad with zero bytes. -/
def resize (v : List uchar) (n : Nat) : List uchar :=
  v.take n ++ List.replicate (n - v.length) 0

/-- Byte found at index `i` counted from `data()`: inside the vector its element,
past the end whatever `beyond` holds there. -/
def peek (mem : List uchar) (beyond : Nat → uchar) (i : Nat) : uchar :=
  if i < mem.length then mem.getD i 0 else beyond i

/-- The bytes copied by `std::memcpy(dst, mem.data() + off, n)`. -/
def memcpy (mem : List uchar) (beyond : Nat → uchar) (off n : Nat) : List uchar :=
  (List.range n).map (fun k => peek mem beyond (off + k))

/-! ## Structures (lines 32-62, 80-104) -/

structure NsoSegmentHeader where
  offset : Nat
  location : Nat
  size : Nat
  /-- The union member `alignment` / `bss_size`. -/
  bss_size : Nat
  deriving DecidableEq, Repr

/-- The other name of the union member. -/
def NsoSegmentHeader.alignment (h : NsoSegmentHeader) : Nat := h.bss_size

structure NsoHeader where
  magic : Nat
  /-- Text, RoData, Data (in that order). -/
  segments : Fin 3 → NsoSegmentHeader
  bss_size : Nat
  segments_compressed_size : Fin 3 → Nat

/-- Size of `NsoHeader` (the `static_assert` of line 51). -/
def sizeof_NsoHeader : Nat := 0x6c

structure ModHeader where
  magic : Nat := 0
  dynamic_offset : Nat := 0
  bss_start_offset : Nat := 0
  bss_end_offset : Nat := 0
  eh_frame_hdr_start_offset : Nat := 0
  eh_frame_hdr_end_offset : Nat := 0
  module_offset : Nat := 0
  deriving DecidableEq, Repr

/-- Size of `ModHeader` (the `static_assert` of line 62). -/
def sizeof_ModHeader : Nat := 0x1c

structure Segment where
  offset : Nat := 0
  addr : Nat := 0
  size : Nat := 0
  deriving DecidableEq, Repr

/-- The struct `CodeSet`; `data_size`, which the code never assigns, is left out.
`segments` has the three entries code, rodata, data. -/
structure CodeSet where
  memory : List uchar
  bss_size : Nat
  segments : List Segment
  has_mod_header : Bool
  mod_header : ModHeader
  entrypoint : Nat := 0
  deriving DecidableEq, Repr

/-- The segment descriptor stored at byte offset `off` of a header image. -/
def decodeSegmentHeader (buf : List uchar) (off : Nat) : NsoSegmentHeader :=
  { offset := le32 buf off, location := le32 buf (off + 4),
    size := le32 buf (off + 8), bss_size := le32 buf (off + 12) }

/-- The `NsoHeader` whose object representation is `buf` (field offsets of lines 43-50:
magic 0, reserved0 4, segments 0x10, bss_size 0x40, reserved1 0x44,
segments_compressed_size 0x60). -/
def decodeNsoHeader (buf : List uchar) : NsoHeader :=
  { magic := le32 buf 0
    segments := fun i => decodeSegmentHeader buf (0x10 + 0x10 * i.val)
    bss_size := le32 buf 0x40
    segments_compressed_size := fun i => le32 buf (0x60 + 4 * i.val) }

/-- The `ModHeader` whose object representation is `buf` (lines 53-61). -/
def decodeModHeader (buf : List uchar) : ModHeader :=
  { magic := le32 buf 0
    dynamic_offset := le32 buf 4
    bss_start_offset := le32 buf 8
    bss_end_offset := le32 buf 12
    eh_frame_hdr_start_offset := le32 buf 16
    eh_frame_hdr_end_offset := le32 buf 20
    module_offset := le32 buf 24 }

/-! ## Constants and small functions (lines 64-78, 106-111) -/

/-- The function `MakeMagic`: `a | b << 8 | c << 16 | d << 24`, converted to `uint32_t`. -/
def MakeMagic (a b c d : Char) : Nat :=
  u32 (a.toNat ||| (b.toNat <<< 8) ||| (c.toNat <<< 16) ||| (d.toNat <<< 24))

def PROCESS_IMAGE_VADDR : Nat := 0x08000000

def DIR_SEP : String := "\\"

def PAGE_BITS : Nat := 12
def PAGE_SIZE : Nat := 1 <<< PAGE_BITS
def PAGE_MASK : Nat := PAGE_SIZE - 1

/-- The function `PageAlignSize`: the argument is converted to the `uint32_t` parameter
`size`, `(size + PAGE_MASK) & ~PAGE_MASK` is computed in `std::size_t`, and the result is
converted to `uint32_t`. -/
def PageAlignSize (size : Nat) : Nat :=
  u32 (((u32 size + PAGE_MASK) % 2 ^ 64) &&& (SIZE_MAX - PAGE_MASK))

/-! ## Input layer -/

/-- The bytes delivered by `qlseek(file, pos, SEEK_SET)` followed by
`qlread(file, buf, n)`; the value `qlread` returns is their number. -/
def qlread (file : List uchar) (pos n : Nat) : List uchar :=
  (file.drop pos).take n

/-- The function `open_linput`: the contents of the file at `path`, `none` for `nullptr`. -/
def open_linput (fs : String → Option (List uchar)) (path : String) : Option (List uchar) :=
  fs path

/-! ## `ReadSegment` (lines 113-130) -/

/-- The function `ReadSegment`.  `none`: `compressed_data.resize` threw. -/
def ReadSegment (lz4 : List uchar → Int → Int → Int × List uchar) (file : List uchar)
    (header : NsoSegmentHeader) (compressed_size : Int) : Option (List uchar) :=
  if compressed_size < 0 then none
  else
    let compressed_data := qlread file header.offset compressed_size.toNat
    if compressed_size ≠ (compressed_data.length : Int) then
      some []
    else
      let uncompressed_data : List uchar := List.replicate header.size 0
      let r := lz4 compressed_data compressed_size (toInt header.size)
      let _bytes_uncompressed := r.1
      some (r.2.take header.size ++ uncompressed_data.drop r.2.length)

/-! ## `LoadModule` (lines 136-188) -/

/-- Lines 142-151 of `LoadModule`: read `sizeof(NsoHeader)` bytes at offset 0 and compare
the magic.  `none` stands for either `return {}`. -/
def readNsoHeader (file : List uchar) : Option NsoHeader :=
  let buf := qlread file 0 sizeof_NsoHeader
  if sizeof_NsoHeader ≠ buf.length then none
  else
    let nso_header := decodeNsoHeader buf
    if nso_header.magic ≠ MakeMagic 'N' 'S' 'O' '0' then none else some nso_header

/-- One iteration of the loop of lines 156-163, on `program_image` and
`codeset.segments`. -/
def placeSegment (lz4 : List uchar → Int → Int → Int × List uchar) (file : List uchar)
    (nso_header : NsoHeader) (st : List uchar × List Segment) (i : Fin 3) :
    Option (List uchar × List Segment) :=
  match ReadSegment lz4 file (nso_header.segments i)
      (toInt (nso_header.segments_compressed_size i)) with
  | none => none
  | some data =>
    let program_image := resize st.1 (nso_header.segments i).location ++ data
    some (program_image,
      st.2.set i.val { addr := (nso_header.segments i).location
                       offset := (nso_header.segments i).location
                       size := PageAlignSize (u32 data.length) })

/-- The loop of lines 155-163: the image and the segment table before the bss is added. -/
def placeSegments (lz4 : List uchar → Int → Int → Int × List uchar) (file : List uchar)
    (nso_header : NsoHeader) : Option (List uchar × List Segment) :=
  ([0, 1, 2] : List (Fin 3)).foldlM (placeSegment lz4 file nso_header)
    (([] : List uchar), [({} : Segment), {}, {}])

/-- What a call of `LoadModule(path, load_base)` does: `ret` is the returned address,
`codeset` the `CodeSet` handed to `LoadModule(codeset, load_base)` when the build gets
that far, `reads` the `(offset, size)` read requests made on the file, in order. -/
structure LoadResult where
  ret : Nat
  codeset : Option CodeSet
  reads : List (Nat × Nat)
  deriving DecidableEq, Repr

/-- The read requests of a load that gets past the header check: the header read and
one read per `ReadSegment` call. -/
def segmentReads (nso_header : NsoHeader) : List (Nat × Nat) :=
  (0, sizeof_NsoHeader) ::
    ([0, 1, 2] : List (Fin 3)).map (fun i =>
      ((nso_header.segments i).offset, (toInt (nso_header.segments_compressed_size i)).toNat))

/-- Lines 165-187 of `LoadModule`: metadata header, bss size, final image. -/
def finishImage (beyond : Nat → uchar) (nso_header : NsoHeader)
    (program_image : List uchar) (segments : List Segment) (load_base : Nat) :
    Nat × CodeSet :=
  let module_offset := le32 (memcpy program_image beyond 4 4) 0
  let bss_default := PageAlignSize (nso_header.segments 2).bss_size
  let mod_header := decodeModHeader (memcpy program_image beyond module_offset sizeof_ModHeader)
  let has_mod_header : Bool := mod_header.magic == MakeMagic 'M' 'O' 'D' '0'
  let bss_size :=
    if has_mod_header then
      PageAlignSize (u32 (mod_header.bss_end_offset + 2 ^ 32 - mod_header.bss_start_offset))
    else bss_default
  let data := segments.getD 2 {}
  let segments := segments.set 2 { data with size := u32 (data.size + bss_size) }
  let image_size := PageAlignSize (u32 program_image.length + bss_size)
  let program_image := resize program_image image_size
  (u32 (load_base + image_size),
    { memory := program_image, bss_size := bss_size, segments := segments,
      has_mod_header := has_mod_header, mod_header := mod_header })

/-- The function `LoadModule(const std::string& path, VAddr load_base)`. -/
def LoadModule (fs : String → Option (List uchar))
    (lz4 : List uchar → Int → Int → Int × List uchar) (beyond : Nat → uchar)
    (path : String) (load_base : Nat) : Option LoadResult :=
  match open_linput fs path with
  | none => some { ret := 0, codeset := none, reads := [] }
  | some file =>
    match readNsoHeader file with
    | none => some { ret := 0, codeset := none, reads := [(0, sizeof_NsoHeader)] }
    | some nso_header =>
      match placeSegments lz4 file nso_header with
      | none => none
      | some (program_image, segments) =>
        let r := finishImage beyond nso_header program_image segments load_base
        some { ret := r.1, codeset := some r.2
               reads := segmentReads nso_header }

/-! ## The module loop of `load_file` (lines 214-226) -/

/-- One call made by the loop: the module name, the `load_addr` passed to `LoadModule`,
and whether the "loaded module" message was printed. -/
structure LoadCall where
  module : String
  load_addr : Nat
  loaded : Bool
  deriving DecidableEq, Repr

/-- The body of the loop, on `next_load_addr` and the calls made so far. -/
def loadStep (fs : String → Option (List uchar))
    (lz4 : List uchar → Int → Int → Int × List uchar) (beyond : Nat → uchar)
    (directory : String) (st : Nat × List LoadCall) (module : String) :
    Option (Nat × List LoadCall) :=
  let path := directory ++ DIR_SEP ++ module
  let load_addr := st.1
  match LoadModule fs lz4 beyond path load_addr with
  | none => none
  | some r =>
    let next_load_addr := r.ret
    if next_load_addr ≠ 0 then
      some (next_load_addr, st.2 ++ [{ module := module, load_addr := load_addr, loaded := true }])
    else
      some (load_addr, st.2 ++ [{ module := module, load_addr := load_addr, loaded := false }])

/-- The loop over a list of module names, started at `base`. -/
def loadModules (fs : String → Option (List uchar))
    (lz4 : List uchar → Int → Int → Int × List uchar) (beyond : Nat → uchar)
    (directory : String) (base : Nat) (modules : List String) :
    Option (Nat × List LoadCall) :=
  modules.foldlM (loadStep fs lz4 beyond directory) (base, [])

/-- The names iterated by `load_file`. -/
def moduleNames : List String :=
  ["rtld", "main", "subsdk0", "subsdk1", "subsdk2", "subsdk3",
   "subsdk4", "subsdk5", "subsdk6", "subsdk7", "sdk"]

/-- The NSO part of `load_file`; `directory` is what `GetCurrentDirectory` stored. -/
def load_file (fs : String → Option (List uchar))
    (lz4 : List uchar → Int → Int → Int × List uchar) (beyond : Nat → uchar)
    (directory : String) : Option (Nat × List LoadCall) :=
  loadModules fs lz4 beyond directory PROCESS_IMAGE_VADDR moduleNames

/-! ## The loop of `LoadModule` in closed form -/

/-- The image and segment table that the loop of lines 155-163 produces when the three
`ReadSegment` calls return `d0`, `d1`, `d2` (see `placeSegments_eq`). -/
def assemble (nso_header : NsoHeader) (d0 d1 d2 : List uchar) : List uchar × List Segment :=
  (resize (resize (resize [] (nso_header.segments 0).location ++ d0)
      (nso_header.segments 1).location ++ d1) (nso_header.segments 2).location ++ d2,
   [{ offset := (nso_header.segments 0).location, addr := (nso_header.segments 0).location,
      size := PageAlignSize (u32 d0.length) },
    { offset := (nso_header.segments 1).location, addr := (nso_header.segments 1).location,
      size := PageAlignSize (u32 d1.length) },
    { offset := (nso_header.segments 2).location, addr := (nso_header.segments 2).location,
      size := PageAlignSize (u32 d2.length) }])

/-! ## Concrete inputs used to evaluate the definitions -/

/-- The four bytes of a little-endian `uint32_t`. -/
def bytes32 (n : Nat) : List uchar :=
  [Fin.ofNat n, Fin.ofNat (n / 2 ^ 8), Fin.ofNat (n / 2 ^ 16), Fin.ofNat (n / 2 ^ 24)]

/-- The 16 bytes of a segment descriptor. -/
def segmentBytes (s : NsoSegmentHeader) : List uchar :=
  bytes32 s.offset ++ bytes32 s.location ++ bytes32 s.size ++ bytes32 s.bss_size

/-- The 0x6c bytes of a container header with the given fields (reserved bytes zero). -/
def headerBytes (magic : Nat) (s0 s1 s2 : NsoSegmentHeader) (bss_size : Nat)
    (c0 c1 c2 : Nat) : List uchar :=
  bytes32 magic ++ List.replicate 0xc 0 ++ segmentBytes s0 ++ segmentBytes s1
    ++ segmentBytes s2 ++ bytes32 bss_size ++ List.replicate 0x1c 0
    ++ bytes32 c0 ++ bytes32 c1 ++ bytes32 c2

/-- A stand-in for the block decompressor on concrete inputs: the block is stored
verbatim, the result is the number of bytes copied, or -1 when they do not fit. -/
def storedBlock (src : List uchar) (_compressedSize : Int) (maxDecompressedSize : Int) :
    Int × List uchar :=
  if (src.length : Int) ≤ maxDecompressedSize then (src.length, src) else (-1, [])

/-- A decompressor that rejects every block. -/
def failingBlock (_src : List uchar) (_compressedSize : Int) (_maxDecompressedSize : Int) :
    Int × List uchar :=
  (-1, [])

/-- Memory past the end of every buffer reads as zero. -/
def zeroBeyond : Nat → uchar := fun _ => 0

/-- A file system holding one file. -/
def oneFile (path : String) (file : List uchar) : String → Option (List uchar) :=
  fun p => if p = path then some file else none

/-- The bytes of an ASCII tag. -/
def asciiBytes (cs : List Char) : List uchar := cs.map (fun c => Fin.ofNat c.toNat)

/-- A header of 0x6c zero bytes: fully readable, magic 0. -/
def badMagicFile : List uchar :=
  headerBytes 0 ⟨0, 0, 0, 0⟩ ⟨0, 0, 0, 0⟩ ⟨0, 0, 0, 0⟩ 0 0 0 0

/-- A container whose text segment (0x20 stored bytes at file offset 0x6c) is present,
whose rodata segment declares 0x10 compressed bytes at file offset 0x8c, where the file
ends, and whose data segment is empty. -/
def shortSegmentFile : List uchar :=
  headerBytes 0x304F534E ⟨0x6c, 0, 0x20, 0⟩ ⟨0x8c, 0x20, 0x10, 0⟩ ⟨0x9c, 0x30, 0, 0⟩ 0
    0x20 0x10 0 ++ List.replicate 0x20 0

/-- A container with a text segment of 0x20 bytes (0x20 compressed bytes at file offset
0x6c) and empty rodata and data segments. -/
def textOnlyFile : List uchar :=
  headerBytes 0x304F534E ⟨0x6c, 0, 0x20, 0⟩ ⟨0x8c, 0x20, 0, 0⟩ ⟨0x8c, 0x20, 0, 0⟩ 0
    0x20 0 0 ++ List.replicate 0x20 0

/-- A stand-in decompressor for blocks of zero bytes: every block expands to
`maxDecompressedSize` zero bytes. -/
def zeroFill (_src : List uchar) (_compressedSize : Int) (maxDecompressedSize : Int) :
    Int × List uchar :=
  (maxDecompressedSize, List.replicate maxDecompressedSize.toNat 0)

/-- The layout of the example: locations 0x0, 0x1000, 0x2000, uncompressed sizes 0x800,
0x400, 0x200, bss size 0x300 (in the data descriptor and in the trailing field), compressed
sizes 0. -/
def layoutFile : List uchar :=
  headerBytes 0x304F534E ⟨0x6c, 0, 0x800, 0⟩ ⟨0x6c, 0x1000, 0x400, 0⟩
    ⟨0x6c, 0x2000, 0x200, 0x300⟩ 0x300 0 0 0

/-- The container `textOnlyFile` with bss size 0xF7FFF000 in the data descriptor. -/
def hugeBssFile : List uchar :=
  headerBytes 0x304F534E ⟨0x6c, 0, 0x20, 0⟩ ⟨0x8c, 0x20, 0, 0⟩ ⟨0x8c, 0x20, 0, 0xF7FFF000⟩ 0
    0x20 0 0 ++ List.replicate 0x20 0

/-- The container `textOnlyFile` with bss size 0xFFFFF000 in the data descriptor. -/
def wrapBssFile : List uchar :=
  headerBytes 0x304F534E ⟨0x6c, 0, 0x20, 0⟩ ⟨0x8c, 0x20, 0, 0⟩ ⟨0x8c, 0x20, 0, 0xFFFFF000⟩ 0
    0x20 0 0 ++ List.replicate 0x20 0

/-- A container whose locations decrease: text (0x20 bytes) at 0x2000, empty rodata at 0,
data (0x20 bytes) at 0. -/
def truncFile : List uchar :=
  headerBytes 0x304F534E ⟨0x6c, 0x2000, 0x20, 0⟩ ⟨0x8c, 0, 0, 0⟩ ⟨0x8c, 0, 0x20, 0⟩ 0
    0x20 0 0x20 ++ List.replicate 0x40 0

/-- The container `textOnlyFile` with 0x300 in the bss slot of the data descriptor and
0x5000 in the trailing `bss_size` field of the header. -/
def bssFieldsFile : List uchar :=
  headerBytes 0x304F534E ⟨0x6c, 0, 0x20, 0⟩ ⟨0x8c, 0x20, 0, 0⟩ ⟨0x8c, 0x20, 0, 0x300⟩ 0x5000
    0x20 0 0 ++ List.replicate 0x20 0

/-- A directory `dir` holding the modules rtld, main and subsdk0. -/
def threeModules (rtld main subsdk0 : List uchar) : String → Option (List uchar) :=
  fun p =>
    if p = "dir\\rtld" then some rtld
    else if p = "dir\\main" then some main
    else if p = "dir\\subsdk0" then some subsdk0
    else none

/-- The 0x1c bytes of a `ModHeader` with magic MOD0 and the given bss bounds (the other
offsets 0, `module_offset` equal to the bss start). -/
def modHeaderBytes (bss_start bss_end : Nat) : List uchar :=
  asciiBytes ['M', 'O', 'D', '0'] ++ bytes32 0 ++ bytes32 bss_start ++ bytes32 bss_end
    ++ bytes32 0 ++ bytes32 0 ++ bytes32 bss_start

/-- A text segment of 0x24 bytes: four zero bytes, the self-pointer `ptr`, and a MOD0
structure with bss bounds 0x1000 and 0x3000. -/
def modText (ptr : Nat) : List uchar :=
  bytes32 0 ++ bytes32 ptr ++ modHeaderBytes 0x1000 0x3000

/-- A container with the text segment `modText 8` at location 0, the rodata bytes 1, 2, 3, 4
at location 0x30 and the data bytes 5, 6, 7, 8 at location 0x40; fallback bss field 0x300. -/
def modFile : List uchar :=
  headerBytes 0x304F534E ⟨0x6c, 0, 0x24, 0⟩ ⟨0x90, 0x30, 4, 0⟩ ⟨0x94, 0x40, 4, 0x300⟩ 0x300
    0x24 4 4 ++ modText 8 ++ [1, 2, 3, 4] ++ [5, 6, 7, 8]

/-- A container whose text segment of 0x20 bytes carries the self-pointer 0x100, which
points past the image; empty rodata and data segments, fallback bss field 0x300. -/
def farPointerFile : List uchar :=
  headerBytes 0x304F534E ⟨0x6c, 0, 0x20, 0⟩ ⟨0x8c, 0x20, 0, 0⟩ ⟨0x8c, 0x20, 0, 0x300⟩ 0
    0x20 0 0 ++ (bytes32 0 ++ bytes32 0x100 ++ List.replicate 0x18 0)

/-- A valid header whose three segments are empty and located at 0; fallback bss field
0x300.  The file ends after the header. -/
def emptySegmentsFile : List uchar :=
  headerBytes 0x304F534E ⟨0x6c, 0, 0, 0⟩ ⟨0x6c, 0, 0, 0⟩ ⟨0x6c, 0, 0, 0x300⟩ 0 0 0 0

/-- Memory past the end of a buffer that holds the value 0x100 at indices 4..7 and a MOD0
structure with bss bounds 0x1000 and 0x3000 at indices 0x100..0x11b, and zero elsewhere. -/
def craftedBeyond : Nat → uchar :=
  fun i =>
    if i < 4 then 0
    else if i < 8 then (bytes32 0x100).getD (i - 4) 0
    else if 0x100 ≤ i then (modHeaderBytes 0x1000 0x3000).getD (i - 0x100) 0
    else 0

/-- A container with a text segment of 0x20 bytes at location 0, an empty rodata segment
and a data segment of one byte at location 0x20, which is not a multiple of 4096. -/
def unalignedDataFile : List uchar :=
  headerBytes 0x304F534E ⟨0x6c, 0, 0x20, 0⟩ ⟨0x8c, 0x20, 0, 0⟩ ⟨0x8c, 0x20, 1, 0⟩ 0
    0x20 0 1 ++ List.replicate 0x21 0

/-- A container whose text segment `modText 0x48` is located at 0x40, so that its
self-pointer lies at image offset 0x44 and its MOD0 structure at image offset 0x48; empty
rodata and data segments at 0x70, fallback bss field 0x300. -/
def shiftedTextFile : List uchar :=
  headerBytes 0x304F534E ⟨0x6c, 0x40, 0x24, 0⟩ ⟨0x90, 0x70, 0, 0⟩ ⟨0x90, 0x70, 0, 0x300⟩ 0
    0x24 0 0 ++ modText 0x48

/-- The container `textOnlyFile` with bss size 0xF8000000 in the data descriptor. -/
def wrapRtldFile : List uchar :=
  headerBytes 0x304F534E ⟨0x6c, 0, 0x20, 0⟩ ⟨0x8c, 0x20, 0, 0⟩ ⟨0x8c, 0x20, 0, 0xF8000000⟩ 0
    0x20 0 0 ++ List.replicate 0x20 0

/-- The container `textOnlyFile` with bss size 0x08000000 in the data descriptor. -/
def wideMainFile : List uchar :=
  headerBytes 0x304F534E ⟨0x6c, 0, 0x20, 0⟩ ⟨0x8c, 0x20, 0, 0⟩ ⟨0x8c, 0x20, 0, 0x08000000⟩ 0
    0x20 0 0 ++ List.replicate 0x20 0

/-! ## Image ranges of the calls made by the loop -/

/-- The number of image bytes that the call `c` of the loop places at `c.load_addr`: the
length of the `CodeSet` memory built by `LoadModule` for that call, 0 when it builds
none. -/
def imageSizeAt (fs : String → Option (List uchar))
    (lz4 : List uchar → Int → Int → Int × List uchar) (beyond : Nat → uchar)
    (directory : String) (c : LoadCall) : Nat :=
  match LoadModule fs lz4 beyond (directory ++ DIR_SEP ++ c.module) c.load_addr with
  | some r =>
    match r.codeset with
    | some cs => cs.memory.length
    | none => 0
  | none => 0

/-! ## Arithmetic of `PageAlignSize` and `MakeMagic` -/

theorem and_not_page_mask (y : Nat) (hy : y < 2 ^ 64) :
    y &&& (SIZE_MAX - PAGE_MASK) = y / 4096 * 4096 := by
  have hm : SIZE_MAX - PAGE_MASK = 2 ^ 12 * (2 ^ 52 - 1) := by decide
  have hd : y / 4096 * 4096 = 2 ^ 12 * (y >>> 12) := by
    rw [Nat.shiftRight_eq_div_pow]; omega
  rw [hm, hd]
  apply Nat.eq_of_testBit_eq
  intro i
  rw [Nat.testBit_and, Nat.testBit_mul_pow_two, Nat.testBit_mul_pow_two,
    Nat.testBit_two_pow_sub_one, Nat.testBit_shiftRight]
  by_cases h12 : 12 ≤ i
  · have e : 12 + (i - 12) = i := by omega
    by_cases h64 : i < 64
    · have : i - 12 < 52 := by omega
      simp [h12, this, e]
    · have hlt : y < 2 ^ i := lt_of_lt_of_le hy (Nat.pow_le_pow_right (by norm_num) (by omega))
      have : ¬ (i - 12 < 52) := by omega
      simp [h12, this, e, Nat.testBit_lt_two_pow hlt]
  · simp [h12]

/-- The arithmetic content of `PageAlignSize`. -/
theorem PageAlignSize_eq (x : Nat) :
    PageAlignSize x = (x % 2 ^ 32 + 4095) / 4096 * 4096 % 2 ^ 32 := by
  unfold PageAlignSize
  rw [and_not_page_mask _ (Nat.mod_lt _ (by norm_num))]
  have h : PAGE_MASK = 4095 := by decide
  simp only [u32, h]
  omega

theorem PageAlignSize_lt (x : Nat) : PageAlignSize x < 2 ^ 32 := by
  rw [PageAlignSize_eq]; omega

theorem PageAlignSize_mod_page (x : Nat) : PageAlignSize x % 4096 = 0 := by
  rw [PageAlignSize_eq]; omega

theorem PageAlignSize_u32 (x : Nat) : PageAlignSize (u32 x) = PageAlignSize x := by
  rw [PageAlignSize_eq, PageAlignSize_eq]; simp [u32]

/-- Without 32-bit wrap-around `PageAlignSize` does not shrink its argument. -/
theorem le_PageAlignSize (x : Nat) (h : x + 4095 < 2 ^ 32) : x ≤ PageAlignSize x := by
  rw [PageAlignSize_eq]; omega

theorem MakeMagic_NSO0 : MakeMagic 'N' 'S' 'O' '0' = 0x304F534E := by decide

theorem MakeMagic_MOD0 : MakeMagic 'M' 'O' 'D' '0' = 0x30444F4D := by decide

/-! ## Buffers -/

theorem length_resize (v : List uchar) (n : Nat) : (resize v n).length = n := by
  simp [resize]; omega

theorem resize_zero (v : List uchar) : resize v 0 = [] := by
  simp [resize]

theorem getD_take (l : List uchar) (n i : Nat) (h : i < n) :
    (l.take n).getD i 0 = l.getD i 0 := by
  simp [List.getD_eq_getElem?_getD, List.getElem?_take, h]

theorem le32_take (l : List uchar) (n k : Nat) (h : k + 4 ≤ n) :
    le32 (l.take n) k = le32 l k := by
  unfold le32
  rw [getD_take _ _ _ (by omega), getD_take _ _ _ (by omega), getD_take _ _ _ (by omega),
    getD_take _ _ _ (by omega)]

theorem le32_lt (l : List uchar) (k : Nat) : le32 l k < 2 ^ 32 := by
  unfold le32
  have h0 := (l.getD k 0).isLt
  have h1 := (l.getD (k + 1) 0).isLt
  have h2 := (l.getD (k + 2) 0).isLt
  have h3 := (l.getD (k + 3) 0).isLt
  omega

theorem qlread_zero (file : List uchar) (n : Nat) : qlread file 0 n = file.take n := by
  simp [qlread]

/-! ## The header check -/

theorem le32_zero_eq_NSO0_iff (file : List uchar) (h : 4 ≤ file.length) :
    le32 file 0 = 0x304F534E ↔ file.take 4 = [0x4e, 0x53, 0x4f, 0x30] := by
  match file, h with
  | a :: b :: c :: d :: rest, _ =>
    have ha := a.isLt
    have hb := b.isLt
    have hc := c.isLt
    have hd := d.isLt
    simp only [le32, List.getD_cons_zero, List.getD_cons_succ, List.take_succ_cons,
      List.take_zero, List.cons.injEq, and_true, Fin.ext_iff]
    simp
    constructor
    · intro h; omega
    · intro h; omega

theorem readNsoHeader_magic (file : List uchar) :
    (decodeNsoHeader (List.take 0x6c file)).magic = le32 file 0 := by
  simp [decodeNsoHeader, le32_take]

/-- The header check has two outcomes: the decoded header, or `none`. -/
theorem readNsoHeader_eq (file : List uchar) :
    readNsoHeader file =
      if 0x6c ≤ file.length ∧ le32 file 0 = MakeMagic 'N' 'S' 'O' '0' then
        some (decodeNsoHeader (file.take 0x6c))
      else none := by
  unfold readNsoHeader
  simp only [qlread_zero, sizeof_NsoHeader, List.length_take, readNsoHeader_magic]
  by_cases hlen : 0x6c ≤ file.length
  · have h1 : ¬ (0x6c ≠ min 0x6c file.length) := by omega
    rw [if_neg h1]
    by_cases hmag : le32 file 0 = MakeMagic 'N' 'S' 'O' '0' <;> simp [hmag, hlen]
  · have h1 : 0x6c ≠ min 0x6c file.length := by omega
    simp [h1, hlen]

theorem readNsoHeader_isSome_iff (file : List uchar) :
    (readNsoHeader file).isSome = true ↔
      0x6c ≤ file.length ∧ file.take 4 = asciiBytes ['N', 'S', 'O', '0'] := by
  have hb : asciiBytes ['N', 'S', 'O', '0'] = [0x4e, 0x53, 0x4f, 0x30] := by decide
  rw [readNsoHeader_eq, MakeMagic_NSO0, hb]
  by_cases hlen : 0x6c ≤ file.length
  · rw [← le32_zero_eq_NSO0_iff file (by omega)]
    by_cases hmag : le32 file 0 = 0x304F534E <;> simp [hmag, hlen]
  · simp [hlen]

/-- A file that fails the header check makes `LoadModule` return 0 after the header read. -/
theorem LoadModule_of_header_none (fs : String → Option (List uchar))
    (lz4 : List uchar → Int → Int → Int × List uchar) (beyond : Nat → uchar)
    (path : String) (load_base : Nat) (file : List uchar)
    (hopen : open_linput fs path = some file) (hhdr : readNsoHeader file = none) :
    LoadModule fs lz4 beyond path load_base =
      some { ret := 0, codeset := none, reads := [(0, sizeof_NsoHeader)] } := by
  simp [LoadModule, hopen, hhdr]

/-- A file that cannot be opened makes `LoadModule` return 0 without any read. -/
theorem LoadModule_of_open_none (fs : String → Option (List uchar))
    (lz4 : List uchar → Int → Int → Int × List uchar) (beyond : Nat → uchar)
    (path : String) (load_base : Nat) (hopen : open_linput fs path = none) :
    LoadModule fs lz4 beyond path load_base =
      some { ret := 0, codeset := none, reads := [] } := by
  simp [LoadModule, hopen]

/-- A `LoadModule` result of 0 makes the loop keep `next_load_addr`. -/
theorem loadStep_of_ret_zero (fs : String → Option (List uchar))
    (lz4 : List uchar → Int → Int → Int × List uchar) (beyond : Nat → uchar)
    (directory module : String) (load_addr : Nat) (calls : List LoadCall) (r : LoadResult)
    (h : LoadModule fs lz4 beyond (directory ++ DIR_SEP ++ module) load_addr = some r)
    (hr : r.ret = 0) :
    loadStep fs lz4 beyond directory (load_addr, calls) module =
      some (load_addr,
        calls ++ [{ module := module, load_addr := load_addr, loaded := false }]) := by
  simp [loadStep, h, hr]

/-- A nonzero `LoadModule` result becomes the next `next_load_addr`. -/
theorem loadStep_of_ret_ne_zero (fs : String → Option (List uchar))
    (lz4 : List uchar → Int → Int → Int × List uchar) (beyond : Nat → uchar)
    (directory module : String) (load_addr : Nat) (calls : List LoadCall) (r : LoadResult)
    (h : LoadModule fs lz4 beyond (directory ++ DIR_SEP ++ module) load_addr = some r)
    (hr : r.ret ≠ 0) :
    loadStep fs lz4 beyond directory (load_addr, calls) module =
      some (r.ret,
        calls ++ [{ module := module, load_addr := load_addr, loaded := true }]) := by
  simp [loadStep, h, hr]

/-! ## Structure of `LoadModule` -/

theorem placeSegments_eq (lz4 : List uchar → Int → Int → Int × List uchar)
    (file : List uchar) (h : NsoHeader) :
    placeSegments lz4 file h =
      (ReadSegment lz4 file (h.segments 0) (toInt (h.segments_compressed_size 0))).bind
        fun d0 =>
      (ReadSegment lz4 file (h.segments 1) (toInt (h.segments_compressed_size 1))).bind
        fun d1 =>
      (ReadSegment lz4 file (h.segments 2) (toInt (h.segments_compressed_size 2))).bind
        fun d2 => some (assemble h d0 d1 d2) := by
  simp only [placeSegments, List.foldlM, placeSegment]
  cases ReadSegment lz4 file (h.segments 0) (toInt (h.segments_compressed_size 0)) with
  | none => rfl
  | some d0 =>
    cases ReadSegment lz4 file (h.segments 1) (toInt (h.segments_compressed_size 1)) with
    | none => rfl
    | some d1 =>
      cases ReadSegment lz4 file (h.segments 2) (toInt (h.segments_compressed_size 2)) with
      | none => rfl
      | some d2 => rfl

theorem length_assemble (h : NsoHeader) (d0 d1 d2 : List uchar) :
    (assemble h d0 d1 d2).1.length = (h.segments 2).location + d2.length := by
  simp [assemble, length_resize]

theorem LoadModule_of_segments (fs : String → Option (List uchar))
    (lz4 : List uchar → Int → Int → Int × List uchar) (beyond : Nat → uchar)
    (path : String) (load_base : Nat) (file : List uchar) (h : NsoHeader)
    (d0 d1 d2 : List uchar)
    (hopen : open_linput fs path = some file) (hhdr : readNsoHeader file = some h)
    (h0 : ReadSegment lz4 file (h.segments 0) (toInt (h.segments_compressed_size 0)) = some d0)
    (h1 : ReadSegment lz4 file (h.segments 1) (toInt (h.segments_compressed_size 1)) = some d1)
    (h2 : ReadSegment lz4 file (h.segments 2) (toInt (h.segments_compressed_size 2)) = some d2) :
    LoadModule fs lz4 beyond path load_base =
      some { ret := (finishImage beyond h (assemble h d0 d1 d2).1 (assemble h d0 d1 d2).2
                      load_base).1
             codeset := some (finishImage beyond h (assemble h d0 d1 d2).1
                      (assemble h d0 d1 d2).2 load_base).2
             reads := segmentReads h } := by
  have hp : placeSegments lz4 file h = some (assemble h d0 d1 d2) := by
    rw [placeSegments_eq, h0, h1, h2]; rfl
  simp only [LoadModule, hopen, hhdr, hp]

/-- Every load that hands over a `CodeSet` went through the three segment reads. -/
theorem LoadModule_codeset_inv (fs : String → Option (List uchar))
    (lz4 : List uchar → Int → Int → Int × List uchar) (beyond : Nat → uchar)
    (path : String) (load_base : Nat) (r : LoadResult) (cs : CodeSet)
    (hr : LoadModule fs lz4 beyond path load_base = some r) (hcs : r.codeset = some cs) :
    ∃ file h d0 d1 d2, open_linput fs path = some file ∧ readNsoHeader file = some h ∧
      ReadSegment lz4 file (h.segments 0) (toInt (h.segments_compressed_size 0)) = some d0 ∧
      ReadSegment lz4 file (h.segments 1) (toInt (h.segments_compressed_size 1)) = some d1 ∧
      ReadSegment lz4 file (h.segments 2) (toInt (h.segments_compressed_size 2)) = some d2 ∧
      r.ret = (finishImage beyond h (assemble h d0 d1 d2).1 (assemble h d0 d1 d2).2
                load_base).1 ∧
      cs = (finishImage beyond h (assemble h d0 d1 d2).1 (assemble h d0 d1 d2).2
                load_base).2 := by
  cases hopen : open_linput fs path with
  | none =>
    rw [LoadModule_of_open_none fs lz4 beyond path load_base hopen] at hr
    cases hr; cases hcs
  | some file =>
    cases hhdr : readNsoHeader file with
    | none =>
      rw [LoadModule_of_header_none fs lz4 beyond path load_base file hopen hhdr] at hr
      cases hr; cases hcs
    | some h =>
      cases h0 : ReadSegment lz4 file (h.segments 0) (toInt (h.segments_compressed_size 0)) with
      | none => simp [LoadModule, hopen, hhdr, placeSegments_eq, h0] at hr
      | some d0 =>
        cases h1 : ReadSegment lz4 file (h.segments 1)
            (toInt (h.segments_compressed_size 1)) with
        | none => simp [LoadModule, hopen, hhdr, placeSegments_eq, h0, h1] at hr
        | some d1 =>
          cases h2 : ReadSegment lz4 file (h.segments 2)
              (toInt (h.segments_compressed_size 2)) with
          | none => simp [LoadModule, hopen, hhdr, placeSegments_eq, h0, h1, h2] at hr
          | some d2 =>
            rw [LoadModule_of_segments fs lz4 beyond path load_base file h d0 d1 d2 hopen hhdr
              h0 h1 h2] at hr
            cases hr
            simp only [Option.some.injEq] at hcs
            exact ⟨file, h, d0, d1, d2, rfl, hhdr, h0, h1, h2, rfl, hcs.symm⟩

theorem finishImage_memory_length (beyond : Nat → uchar) (h : NsoHeader) (img : List uchar)
    (segs : List Segment) (load_base : Nat) :
    (finishImage beyond h img segs load_base).2.memory.length =
      PageAlignSize (u32 img.length + (finishImage beyond h img segs load_base).2.bss_size) := by
  simp [finishImage, length_resize]

theorem finishImage_ret (beyond : Nat → uchar) (h : NsoHeader) (img : List uchar)
    (segs : List Segment) (load_base : Nat) :
    (finishImage beyond h img segs load_base).1 =
      u32 (load_base + (finishImage beyond h img segs load_base).2.memory.length) := by
  simp [finishImage, length_resize]

theorem finishImage_has_mod_header (beyond : Nat → uchar) (h : NsoHeader) (img : List uchar)
    (segs : List Segment) (load_base : Nat) :
    (finishImage beyond h img segs load_base).2.has_mod_header =
      ((finishImage beyond h img segs load_base).2.mod_header.magic
        == MakeMagic 'M' 'O' 'D' '0') := by
  simp [finishImage]

theorem finishImage_bss_size (beyond : Nat → uchar) (h : NsoHeader) (img : List uchar)
    (segs : List Segment) (load_base : Nat) :
    (finishImage beyond h img segs load_base).2.bss_size =
      if (finishImage beyond h img segs load_base).2.has_mod_header = true then
        PageAlignSize (u32 ((finishImage beyond h img segs load_base).2.mod_header.bss_end_offset
          + 2 ^ 32 - (finishImage beyond h img segs load_base).2.mod_header.bss_start_offset))
      else PageAlignSize (h.segments 2).bss_size := by
  simp [finishImage]

theorem finishImage_codeset_base (beyond : Nat → uchar) (h : NsoHeader) (img : List uchar)
    (segs : List Segment) (b b' : Nat) :
    (finishImage beyond h img segs b).2 = (finishImage beyond h img segs b').2 := by
  simp [finishImage]

/-- A successful build in terms of the three segment buffers. -/
theorem LoadModule_build (fs : String → Option (List uchar))
    (lz4 : List uchar → Int → Int → Int × List uchar) (beyond : Nat → uchar)
    (path : String) (load_base : Nat) (file : List uchar) (h : NsoHeader)
    (d0 d1 d2 : List uchar)
    (hopen : open_linput fs path = some file) (hhdr : readNsoHeader file = some h)
    (h0 : ReadSegment lz4 file (h.segments 0) (toInt (h.segments_compressed_size 0)) = some d0)
    (h1 : ReadSegment lz4 file (h.segments 1) (toInt (h.segments_compressed_size 1)) = some d1)
    (h2 : ReadSegment lz4 file (h.segments 2) (toInt (h.segments_compressed_size 2)) = some d2) :
    ∃ r cs, LoadModule fs lz4 beyond path load_base = some r ∧ r.codeset = some cs ∧
      cs = (finishImage beyond h (assemble h d0 d1 d2).1 (assemble h d0 d1 d2).2 0).2 ∧
      cs.memory.length = PageAlignSize (u32 ((h.segments 2).location + d2.length) + cs.bss_size) ∧
      r.ret = u32 (load_base + cs.memory.length) := by
  refine ⟨_, _, LoadModule_of_segments fs lz4 beyond path load_base file h d0 d1 d2 hopen hhdr
    h0 h1 h2, rfl, finishImage_codeset_base _ _ _ _ _ _, ?_, finishImage_ret _ _ _ _ _⟩
  rw [finishImage_memory_length, length_assemble]

theorem readNsoHeader_of_valid (file : List uchar)
    (h : (readNsoHeader file).isSome = true) :
    readNsoHeader file = some (decodeNsoHeader (file.take 0x6c)) := by
  rw [readNsoHeader_eq] at h ⊢
  split
  · rfl
  · next hn => simp [hn] at h

theorem peek_of_zero (mem : List uchar) (hz : ∀ b ∈ mem, b = 0) (i : Nat) :
    peek mem zeroBeyond i = 0 := by
  unfold peek
  split
  · next hlt =>
    rw [List.getD_eq_getElem _ _ hlt]
    exact hz _ (List.getElem_mem hlt)
  · rfl

theorem le32_memcpy_of_zero (mem : List uchar) (hz : ∀ b ∈ mem, b = 0) (off n k : Nat) :
    le32 (memcpy mem zeroBeyond off n) k = 0 := by
  have hg : ∀ j, (memcpy mem zeroBeyond off n).getD j 0 = 0 := by
    intro j
    by_cases hj : j < (memcpy mem zeroBeyond off n).length
    · rw [List.getD_eq_getElem _ _ hj]
      simp [memcpy, peek_of_zero mem hz]
    · rw [List.getD_eq_default _ _ (by omega)]
  unfold le32
  rw [hg, hg, hg, hg]
  rfl

/-- An all-zero image read against all-zero memory carries no metadata header. -/
theorem finishImage_of_zero (h : NsoHeader) (img : List uchar) (segs : List Segment)
    (load_base : Nat) (hz : ∀ b ∈ img, b = 0) :
    (finishImage zeroBeyond h img segs load_base).2.has_mod_header = false ∧
    (finishImage zeroBeyond h img segs load_base).2.bss_size =
      PageAlignSize (h.segments 2).bss_size := by
  have hm : (decodeModHeader (memcpy img zeroBeyond
      (le32 (memcpy img zeroBeyond 4 4) 0) sizeof_ModHeader)).magic = 0 := by
    simp [decodeModHeader, le32_memcpy_of_zero img hz]
  have hne : ((0 : Nat) == MakeMagic 'M' 'O' 'D' '0') = false := by decide
  simp [finishImage, hm, hne]

theorem resize_of_zero (v : List uchar) (n : Nat) (hz : ∀ b ∈ v, b = 0) :
    ∀ b ∈ resize v n, b = 0 := by
  intro b hb
  simp only [resize, List.mem_append, List.mem_replicate] at hb
  rcases hb with hb | hb
  · exact hz b (List.mem_of_mem_take hb)
  · exact hb.2

theorem assemble_of_zero (h : NsoHeader) (d0 d1 d2 : List uchar)
    (h0 : ∀ b ∈ d0, b = 0) (h1 : ∀ b ∈ d1, b = 0) (h2 : ∀ b ∈ d2, b = 0) :
    ∀ b ∈ (assemble h d0 d1 d2).1, b = 0 := by
  have append_zero : ∀ (u v : List uchar), (∀ b ∈ u, b = 0) → (∀ b ∈ v, b = 0) →
      ∀ b ∈ u ++ v, b = 0 := by
    intro u v hu hv b hb
    rcases List.mem_append.mp hb with hb | hb
    · exact hu b hb
    · exact hv b hb
  unfold assemble
  apply append_zero _ _ _ h2
  apply resize_of_zero
  apply append_zero _ _ _ h1
  apply resize_of_zero
  apply append_zero _ _ _ h0
  apply resize_of_zero
  simp

theorem PageAlignSize_congr (x y : Nat) (h : x % 2 ^ 32 = y % 2 ^ 32) :
    PageAlignSize x = PageAlignSize y := by
  rw [PageAlignSize_eq, PageAlignSize_eq, h]

/-- The address returned by a load that handed over a `CodeSet`. -/
theorem LoadModule_ret_of_codeset (fs : String → Option (List uchar))
    (lz4 : List uchar → Int → Int → Int × List uchar) (beyond : Nat → uchar)
    (path : String) (load_base : Nat) (r : LoadResult) (cs : CodeSet)
    (hr : LoadModule fs lz4 beyond path load_base = some r) (hcs : r.codeset = some cs) :
    r.ret = u32 (load_base + cs.memory.length) ∧
      ∃ x, cs.memory.length = PageAlignSize x := by
  obtain ⟨file, h, d0, d1, d2, _, _, _, _, _, hret, hc⟩ :=
    LoadModule_codeset_inv fs lz4 beyond path load_base r cs hr hcs
  rw [hret, hc]
  exact ⟨finishImage_ret _ _ _ _ _, _, finishImage_memory_length _ _ _ _ _⟩

/-- The bss size and the metadata flag of a `CodeSet` in terms of the copied structure. -/
theorem LoadModule_bss_of_codeset (fs : String → Option (List uchar))
    (lz4 : List uchar → Int → Int → Int × List uchar) (beyond : Nat → uchar)
    (path : String) (load_base : Nat) (file : List uchar) (h : NsoHeader)
    (r : LoadResult) (cs : CodeSet)
    (hopen : open_linput fs path = some file) (hhdr : readNsoHeader file = some h)
    (hr : LoadModule fs lz4 beyond path load_base = some r) (hcs : r.codeset = some cs) :
    cs.has_mod_header = (cs.mod_header.magic == MakeMagic 'M' 'O' 'D' '0') ∧
    cs.bss_size =
      if cs.has_mod_header = true then
        PageAlignSize (u32 (cs.mod_header.bss_end_offset + 2 ^ 32
          - cs.mod_header.bss_start_offset))
      else PageAlignSize (h.segments 2).bss_size := by
  obtain ⟨file', h', d0, d1, d2, hopen', hhdr', _, _, _, _, hc⟩ :=
    LoadModule_codeset_inv fs lz4 beyond path load_base r cs hr hcs
  rw [hopen] at hopen'
  cases hopen'
  rw [hhdr] at hhdr'
  cases hhdr'
  rw [hc]
  exact ⟨finishImage_has_mod_header _ _ _ _ _, finishImage_bss_size _ _ _ _ _⟩

theorem ReadSegment_zeroFill (file : List uchar) (header : NsoSegmentHeader)
    (hsize : header.size < 2 ^ 31) :
    ReadSegment zeroFill file header 0 = some (List.replicate header.size 0) := by
  have ht : toInt header.size = (header.size : Int) := by
    unfold toInt u32
    have : header.size % 2 ^ 32 = header.size := Nat.mod_eq_of_lt (by omega)
    rw [this]
    rw [if_pos hsize]
  simp [ReadSegment, qlread, zeroFill, ht]

/-- Every base gives a successful build of `textOnlyFile` with image size 0x1000. -/
theorem textOnlyFile_builds (fs : String → Option (List uchar)) (path : String)
    (hopen : open_linput fs path = some textOnlyFile) (b : Nat) :
    ∃ r cs, LoadModule fs storedBlock zeroBeyond path b = some r ∧ r.codeset = some cs ∧
      cs.memory.length = 0x1000 := by
  obtain ⟨r, cs, hr, hcs, hcs2, hlen, _⟩ :=
    LoadModule_build fs storedBlock zeroBeyond path b textOnlyFile _
      (List.replicate 0x20 0) [] [] hopen
      (readNsoHeader_of_valid textOnlyFile (by decide)) (by decide) (by decide) (by decide)
  have hb : cs.bss_size = 0 := by rw [hcs2]; decide
  exact ⟨r, cs, hr, hcs, by rw [hlen, hb]; decide⟩

/-! ## Reads inside the buffer -/

theorem peek_of_lt (mem : List uchar) (beyond : Nat → uchar) (i : Nat) (h : i < mem.length) :
    peek mem beyond i = mem.getD i 0 := by
  simp [peek, h]

theorem getD_memcpy (mem : List uchar) (beyond : Nat → uchar) (off n j : Nat) (hj : j < n) :
    (memcpy mem beyond off n).getD j 0 = peek mem beyond (off + j) := by
  simp [memcpy, List.getD_eq_getElem?_getD, hj]

/-- A copy that stays inside the buffer delivers the bytes of the buffer. -/
theorem le32_memcpy_of_le (mem : List uchar) (beyond : Nat → uchar) (off n k : Nat)
    (h : off + n ≤ mem.length) (hk : k + 4 ≤ n) :
    le32 (memcpy mem beyond off n) k = le32 mem (off + k) := by
  unfold le32
  rw [getD_memcpy _ _ _ _ _ (by omega), getD_memcpy _ _ _ _ _ (by omega),
    getD_memcpy _ _ _ _ _ (by omega), getD_memcpy _ _ _ _ _ (by omega),
    peek_of_lt _ _ _ (by omega), peek_of_lt _ _ _ (by omega), peek_of_lt _ _ _ (by omega),
    peek_of_lt _ _ _ (by omega)]
  simp only [Nat.add_assoc]

theorem finishImage_mod_header (beyond : Nat → uchar) (h : NsoHeader) (img : List uchar)
    (segs : List Segment) (load_base : Nat) :
    (finishImage beyond h img segs load_base).2.mod_header =
      decodeModHeader (memcpy img beyond (le32 (memcpy img beyond 4 4) 0) sizeof_ModHeader) := by
  simp [finishImage]

theorem finishImage_segments (beyond : Nat → uchar) (h : NsoHeader) (img : List uchar)
    (segs : List Segment) (load_base : Nat) :
    (finishImage beyond h img segs load_base).2.segments =
      segs.set 2 { segs.getD 2 {} with
        size := u32 ((segs.getD 2 {}).size
          + (finishImage beyond h img segs load_base).2.bss_size) } := by
  simp [finishImage]

theorem finishImage_memory (beyond : Nat → uchar) (h : NsoHeader) (img : List uchar)
    (segs : List Segment) (load_base : Nat) :
    (finishImage beyond h img segs load_base).2.memory =
      resize img (finishImage beyond h img segs load_base).2.memory.length := by
  simp [finishImage, length_resize]

theorem resize_of_le (v : List uchar) (n : Nat) (h : v.length ≤ n) :
    resize v n = v ++ List.replicate (n - v.length) 0 := by
  simp [resize, List.take_of_length_le h]

/-- The image assembled from segments at non-overlapping increasing locations. -/
theorem assemble_of_ordered (h : NsoHeader) (d0 d1 d2 : List uchar)
    (h01 : (h.segments 0).location + d0.length ≤ (h.segments 1).location)
    (h12 : (h.segments 1).location + d1.length ≤ (h.segments 2).location) :
    (assemble h d0 d1 d2).1 =
      List.replicate (h.segments 0).location 0 ++ d0
        ++ List.replicate ((h.segments 1).location - ((h.segments 0).location + d0.length)) 0
        ++ d1
        ++ List.replicate ((h.segments 2).location - ((h.segments 1).location + d1.length)) 0
        ++ d2 := by
  have e0 : resize [] (h.segments 0).location = List.replicate (h.segments 0).location 0 := by
    simp [resize]
  have l0 : (List.replicate (h.segments 0).location (0 : uchar) ++ d0).length =
      (h.segments 0).location + d0.length := by simp
  have e1 : resize (List.replicate (h.segments 0).location 0 ++ d0) (h.segments 1).location =
      List.replicate (h.segments 0).location 0 ++ d0
        ++ List.replicate ((h.segments 1).location - ((h.segments 0).location + d0.length)) 0 := by
    rw [resize_of_le _ _ (by rw [l0]; exact h01), l0]
  have l1 : (List.replicate (h.segments 0).location (0 : uchar) ++ d0
      ++ List.replicate ((h.segments 1).location - ((h.segments 0).location + d0.length)) 0
      ++ d1).length = (h.segments 1).location + d1.length := by
    simp; omega
  simp only [assemble]
  rw [e0, e1, resize_of_le _ _ (by rw [l1]; exact h12), l1]

/-! ## The loop of `load_file` -/

/-- A load that hands over no `CodeSet` returns 0. -/
theorem LoadModule_ret_of_no_codeset (fs : String → Option (List uchar))
    (lz4 : List uchar → Int → Int → Int × List uchar) (beyond : Nat → uchar)
    (path : String) (load_base : Nat) (r : LoadResult)
    (hr : LoadModule fs lz4 beyond path load_base = some r) (hcs : r.codeset = none) :
    r.ret = 0 := by
  unfold LoadModule at hr
  split at hr
  · cases hr; rfl
  · split at hr
    · cases hr; rfl
    · split at hr
      · cases hr
      · cases hr; simp at hcs

/-- The two outcomes of one iteration of the loop. -/
theorem loadStep_eq_some (fs : String → Option (List uchar))
    (lz4 : List uchar → Int → Int → Int × List uchar) (beyond : Nat → uchar)
    (directory module : String) (b : Nat) (calls : List LoadCall) (st : Nat × List LoadCall)
    (h : loadStep fs lz4 beyond directory (b, calls) module = some st) :
    ∃ r flag, LoadModule fs lz4 beyond (directory ++ DIR_SEP ++ module) b = some r ∧
      st = (if r.ret ≠ 0 then r.ret else b,
        calls ++ [{ module := module, load_addr := b, loaded := flag }]) := by
  unfold loadStep at h
  cases hr : LoadModule fs lz4 beyond (directory ++ DIR_SEP ++ module) b with
  | none => simp [hr] at h
  | some r =>
    simp only [hr] at h
    by_cases hz : r.ret ≠ 0
    · rw [if_pos hz] at h
      cases h
      exact ⟨r, true, rfl, by rw [if_pos hz]⟩
    · rw [if_neg hz] at h
      cases h
      exact ⟨r, false, rfl, by rw [if_neg hz]⟩

/-- Without 32-bit wrap-around the loop advances by the size of the image it placed. -/
theorem loadStep_next (fs : String → Option (List uchar))
    (lz4 : List uchar → Int → Int → Int × List uchar) (beyond : Nat → uchar)
    (directory module : String) (b : Nat) (calls : List LoadCall) (st : Nat × List LoadCall)
    (h : loadStep fs lz4 beyond directory (b, calls) module = some st) :
    ∃ c, c.module = module ∧ c.load_addr = b ∧ st.2 = calls ++ [c] ∧
      (b + imageSizeAt fs lz4 beyond directory c < 2 ^ 32 →
        st.1 = b + imageSizeAt fs lz4 beyond directory c) := by
  obtain ⟨r, flag, hr, hst⟩ := loadStep_eq_some fs lz4 beyond directory module b calls st h
  refine ⟨{ module := module, load_addr := b, loaded := flag }, rfl, rfl, by rw [hst], ?_⟩
  intro hlt
  rw [hst]
  simp only [imageSizeAt, hr] at hlt ⊢
  cases hcs : r.codeset with
  | none =>
    have hz := LoadModule_ret_of_no_codeset fs lz4 beyond _ b r hr hcs
    simp [hz]
  | some cs =>
    simp only [hcs] at hlt ⊢
    have hret := (LoadModule_ret_of_codeset fs lz4 beyond _ b r cs hr hcs).1
    have hret' : r.ret = b + cs.memory.length := by
      rw [hret]; exact Nat.mod_eq_of_lt hlt
    by_cases hz : r.ret ≠ 0
    · rw [if_pos hz]; exact hret'
    · rw [if_neg hz]
      have : r.ret = 0 := by omega
      omega

/-- The calls made so far stay at the front of the list of calls. -/
theorem foldlM_loadStep_prefix (fs : String → Option (List uchar))
    (lz4 : List uchar → Int → Int → Int × List uchar) (beyond : Nat → uchar)
    (directory : String) (modules : List String) :
    ∀ (st out : Nat × List LoadCall),
      List.foldlM (loadStep fs lz4 beyond directory) st modules = some out →
      ∃ new, out.2 = st.2 ++ new ∧ new.map LoadCall.module = modules := by
  induction modules with
  | nil =>
    intro st out h
    simp only [List.foldlM_nil] at h
    cases h
    exact ⟨[], by simp, rfl⟩
  | cons m rest ih =>
    intro st out h
    rw [List.foldlM_cons] at h
    cases hs : loadStep fs lz4 beyond directory st m with
    | none => simp [hs] at h
    | some st' =>
      rw [hs] at h
      simp only [Option.bind_eq_bind, Option.some_bind] at h
      obtain ⟨c, hcm, _, hst', _⟩ :=
        loadStep_next fs lz4 beyond directory m st.1 st.2 st' hs
      obtain ⟨new, hout, hmap⟩ := ih st' out h
      exact ⟨c :: new, by rw [hout, hst']; simp, by simp [hcm, hmap]⟩

/-- Without 32-bit wrap-around every call of the loop starts at or after the end of the
image of every earlier call. -/
theorem foldlM_loadStep_ranges (fs : String → Option (List uchar))
    (lz4 : List uchar → Int → Int → Int × List uchar) (beyond : Nat → uchar)
    (directory : String) (modules : List String) :
    ∀ (st out : Nat × List LoadCall),
      List.foldlM (loadStep fs lz4 beyond directory) st modules = some out →
      (∀ c ∈ out.2, c.load_addr + imageSizeAt fs lz4 beyond directory c < 2 ^ 32) →
      List.Pairwise (fun c c' => c.load_addr ≤ c'.load_addr ∧
        c.load_addr + imageSizeAt fs lz4 beyond directory c ≤ c'.load_addr) st.2 →
      (∀ c ∈ st.2, c.load_addr + imageSizeAt fs lz4 beyond directory c ≤ st.1) →
      List.Pairwise (fun c c' => c.load_addr ≤ c'.load_addr ∧
        c.load_addr + imageSizeAt fs lz4 beyond directory c ≤ c'.load_addr) out.2 ∧
      ∀ c ∈ out.2, c.load_addr + imageSizeAt fs lz4 beyond directory c ≤ out.1 := by
  induction modules with
  | nil =>
    intro st out h _ hp hb
    simp only [List.foldlM_nil] at h
    cases h
    exact ⟨hp, hb⟩
  | cons m rest ih =>
    intro st out h hnw hp hb
    rw [List.foldlM_cons] at h
    cases hs : loadStep fs lz4 beyond directory st m with
    | none => simp [hs] at h
    | some st' =>
      rw [hs] at h
      simp only [Option.bind_eq_bind, Option.some_bind] at h
      obtain ⟨c, _, hcb, hst', hnext⟩ :=
        loadStep_next fs lz4 beyond directory m st.1 st.2 st' hs
      obtain ⟨new, hout, _⟩ := foldlM_loadStep_prefix fs lz4 beyond directory rest st' out h
      have hc_out : c ∈ out.2 := by
        rw [hout, hst']; simp
      have hcw := hnw c hc_out
      rw [hcb] at hcw
      have hn := hnext hcw
      apply ih st' out h hnw
      · rw [hst']
        refine List.pairwise_append.mpr ⟨hp, List.pairwise_singleton _ _, ?_⟩
        intro a ha b hbm
        rw [List.mem_singleton] at hbm
        subst hbm
        have := hb a ha
        rw [hcb]
        omega
      · intro a ha
        rw [hst'] at ha
        rcases List.mem_append.mp ha with ha | ha
        · have := hb a ha
          omega
        · rw [List.mem_singleton] at ha
          subst ha
          rw [hn, hcb]

theorem imageSizeAt_of_open_none (fs : String → Option (List uchar))
    (lz4 : List uchar → Int → Int → Int × List uchar) (beyond : Nat → uchar)
    (directory : String) (c : LoadCall)
    (hopen : open_linput fs (directory ++ DIR_SEP ++ c.module) = none) :
    imageSizeAt fs lz4 beyond directory c = 0 := by
  simp [imageSizeAt, LoadModule_of_open_none fs lz4 beyond _ c.load_addr hopen]

theorem imageSizeAt_textOnlyFile (fs : String → Option (List uchar))
    (directory : String) (c : LoadCall)
    (hopen : open_linput fs (directory ++ DIR_SEP ++ c.module) = some textOnlyFile) :
    imageSizeAt fs storedBlock zeroBeyond directory c = 0x1000 := by
  obtain ⟨r, cs, hr, hcs, hlen⟩ := textOnlyFile_builds fs _ hopen c.load_addr
  simp [imageSizeAt, hr, hcs, hlen]

/-- One more characterisation of `PageAlignSize`: rounding up when nothing wraps. -/
theorem PageAlignSize_of_lt (x : Nat) (h : x + 4095 < 2 ^ 32) :
    PageAlignSize x = (x + 4095) / 4096 * 4096 := by
  rw [PageAlignSize_eq]; omega

/-! ## C1 -/

/-- C1, as stated, fails: for the fully readable header `badMagicFile`, whose magic is 0 and
not the tag NSO0, `LoadModule` called with base 0x08000000 returns 0, not 0x08000000. -/
theorem LoadModule_bad_magic_counterexample :
    sizeof_NsoHeader ≤ badMagicFile.length ∧
    le32 badMagicFile 0 ≠ MakeMagic 'N' 'S' 'O' '0' ∧
    (LoadModule (oneFile "main" badMagicFile) storedBlock zeroBeyond "main" 0x08000000).map
      LoadResult.ret = some 0 ∧
    (LoadModule (oneFile "main" badMagicFile) storedBlock zeroBeyond "main" 0x08000000).map
      LoadResult.ret ≠ some 0x08000000 := by
  decide

/-- C1 (amended): for every base address and every container file whose 0x6c-byte header
is fully readable but whose magic field is not the tag NSO0, `LoadModule(path, base)`
returns 0 and builds no `CodeSet`, having read only the header; the loop of `load_file`
then keeps the base address it passed unchanged for the next module. -/
theorem LoadModule_bad_magic (fs : String → Option (List uchar))
    (lz4 : List uchar → Int → Int → Int × List uchar) (beyond : Nat → uchar)
    (directory module : String) (load_base : Nat) (calls : List LoadCall)
    (file : List uchar)
    (hopen : open_linput fs (directory ++ DIR_SEP ++ module) = some file)
    (_hlen : sizeof_NsoHeader ≤ file.length)
    (hmagic : le32 file 0 ≠ MakeMagic 'N' 'S' 'O' '0') :
    LoadModule fs lz4 beyond (directory ++ DIR_SEP ++ module) load_base =
        some { ret := 0, codeset := none, reads := [(0, sizeof_NsoHeader)] } ∧
    loadStep fs lz4 beyond directory (load_base, calls) module =
      some (load_base,
        calls ++ [{ module := module, load_addr := load_base, loaded := false }]) := by
  have hhdr : readNsoHeader file = none := by
    rw [readNsoHeader_eq]; simp [hmagic]
  have hload := LoadModule_of_header_none fs lz4 beyond _ load_base file hopen hhdr
  exact ⟨hload, loadStep_of_ret_zero fs lz4 beyond directory module load_base calls _ hload rfl⟩

/-- Witness of `LoadModule_bad_magic`: the file `badMagicFile` stored as `dir\main`. -/
theorem LoadModule_bad_magic_witness :
    LoadModule (oneFile "dir\\main" badMagicFile) storedBlock zeroBeyond
        ("dir" ++ DIR_SEP ++ "main") 0x08000000 =
        some { ret := 0, codeset := none, reads := [(0, sizeof_NsoHeader)] } ∧
    loadStep (oneFile "dir\\main" badMagicFile) storedBlock zeroBeyond "dir"
        (0x08000000, []) "main" =
      some (0x08000000, [] ++ [{ module := "main", load_addr := 0x08000000, loaded := false }]) :=
  LoadModule_bad_magic (oneFile "dir\\main" badMagicFile) storedBlock zeroBeyond "dir" "main"
    0x08000000 [] badMagicFile (by decide) (by decide) (by decide)

/-! ## C2 -/

/-- C2: header decoding in `LoadModule` succeeds exactly when the file can be opened,
supplies at least 0x6c bytes from offset 0 and starts with the bytes N, S, O, 0, which is
the little-endian word `MakeMagic('N','S','O','0') = 0x304F534E`; in every other case
`LoadModule` returns 0 with no `CodeSet`, and its only read, if any, is the header read. -/
theorem header_decoding_succeeds_iff (fs : String → Option (List uchar))
    (lz4 : List uchar → Int → Int → Int × List uchar) (beyond : Nat → uchar)
    (path : String) (load_base : Nat) :
    MakeMagic 'N' 'S' 'O' '0' = 0x304F534E ∧
    le32 (asciiBytes ['N', 'S', 'O', '0']) 0 = 0x304F534E ∧
    (((open_linput fs path).bind readNsoHeader).isSome = true ↔
      ∃ file, open_linput fs path = some file ∧ 0x6c ≤ file.length ∧
        file.take 4 = asciiBytes ['N', 'S', 'O', '0']) ∧
    (((open_linput fs path).bind readNsoHeader).isSome = false →
      ∃ reads, LoadModule fs lz4 beyond path load_base =
          some { ret := 0, codeset := none, reads := reads } ∧
        ∀ rd ∈ reads, rd = (0, sizeof_NsoHeader)) := by
  refine ⟨MakeMagic_NSO0, by decide, ?_, ?_⟩
  · cases hopen : open_linput fs path with
    | none => simp
    | some file => simp [readNsoHeader_isSome_iff]
  · intro hfail
    cases hopen : open_linput fs path with
    | none =>
      exact ⟨[], LoadModule_of_open_none fs lz4 beyond path load_base hopen, by simp⟩
    | some file =>
      rw [hopen] at hfail
      have hhdr : readNsoHeader file = none := by
        cases h : readNsoHeader file with
        | none => rfl
        | some hd => simp [h] at hfail
      exact ⟨_, LoadModule_of_header_none fs lz4 beyond path load_base file hopen hhdr, by simp⟩

/-- Witness of `header_decoding_succeeds_iff`: the header of `textOnlyFile` decodes, the
header of `badMagicFile` does not and its load stops after the header read. -/
theorem header_decoding_succeeds_iff_witness :
    ((open_linput (oneFile "main" textOnlyFile) "main").bind readNsoHeader).isSome = true ∧
    ((open_linput (oneFile "main" badMagicFile) "main").bind readNsoHeader).isSome = false ∧
    ∃ reads, LoadModule (oneFile "main" badMagicFile) storedBlock zeroBeyond "main" 0x08000000 =
        some { ret := 0, codeset := none, reads := reads } ∧
      ∀ rd ∈ reads, rd = (0, sizeof_NsoHeader) :=
  ⟨by decide, by decide,
    (header_decoding_succeeds_iff (oneFile "main" badMagicFile) storedBlock zeroBeyond "main"
      0x08000000).2.2.2 (by decide)⟩

/-! ## C3 -/

/-- C3 (the code at the failing input): in `shortSegmentFile` the read of the rodata
segment is short (0 of 0x10 bytes) and `ReadSegment` returns an empty buffer; `LoadModule`
nevertheless builds a `CodeSet` and returns the advanced address 0x08001000. -/
theorem LoadModule_short_segment_read :
    (readNsoHeader shortSegmentFile).isSome = true ∧
    (qlread shortSegmentFile 0x8c 0x10).length = 0 ∧
    ReadSegment storedBlock shortSegmentFile ⟨0x8c, 0x20, 0x10, 0⟩ 0x10 = some [] ∧
    (LoadModule (oneFile "main" shortSegmentFile) storedBlock zeroBeyond "main"
        0x08000000).map (fun r => (r.ret, r.codeset.isSome, r.reads)) =
      some (0x08001000, true, [(0, 0x6c), (0x6c, 0x20), (0x8c, 0x10), (0x9c, 0)]) := by
  decide

/-! ## C4 -/

/-- C4 (the code at the failing input): with a decompressor that returns -1 for every
block, `ReadSegment` on the text segment of `textOnlyFile` still hands back a buffer of
`size` = 0x20 bytes, and `LoadModule` builds a `CodeSet` and returns the advanced address
0x08001000. -/
theorem LoadModule_decompression_error :
    (failingBlock (qlread textOnlyFile 0x6c 0x20) 0x20 0x20).1 = -1 ∧
    ReadSegment failingBlock textOnlyFile ⟨0x6c, 0, 0x20, 0⟩ 0x20 =
      some (List.replicate 0x20 0) ∧
    (LoadModule (oneFile "main" textOnlyFile) failingBlock zeroBeyond "main"
        0x08000000).map (fun r => (r.ret, r.codeset.isSome)) = some (0x08001000, true) := by
  decide

/-! ## C5 -/

/-- C5, as stated, fails on `load_file` itself: rtld, main and subsdk0 all build, with
final image sizes 0xF8000000, 0x1000 and 0x1000, and the loop starts at 0x08000000.  The
result of the first call, 0x08000000 + 0xF8000000, is 0 as a 32-bit address, which the
loop takes for a failure: main is passed 0x08000000 again and subsdk0 0x08001000, instead
of base + s1 and base + s1 + s2. -/
theorem load_file_bases_counterexample :
    (∃ r cs, LoadModule (threeModules hugeBssFile textOnlyFile textOnlyFile) storedBlock
        zeroBeyond "dir\\rtld" 0x08000000 = some r ∧ r.codeset = some cs ∧
        cs.memory.length = 0xF8000000 ∧ r.ret = 0) ∧
    (∃ r cs, LoadModule (threeModules hugeBssFile textOnlyFile textOnlyFile) storedBlock
        zeroBeyond "dir\\main" 0x08000000 = some r ∧ r.codeset = some cs ∧
        cs.memory.length = 0x1000) ∧
    (∃ r cs, LoadModule (threeModules hugeBssFile textOnlyFile textOnlyFile) storedBlock
        zeroBeyond "dir\\subsdk0" 0x08001000 = some r ∧ r.codeset = some cs ∧
        cs.memory.length = 0x1000) ∧
    (load_file (threeModules hugeBssFile textOnlyFile textOnlyFile) storedBlock zeroBeyond
        "dir").map (fun st => (st.2.map LoadCall.load_addr).take 3) =
      some [0x08000000, 0x08000000, 0x08001000] ∧
    PROCESS_IMAGE_VADDR = 0x08000000 ∧
    u32 (0x08000000 + 0xF8000000) ≠ 0x08000000 ∧
    u32 (0x08000000 + 0xF8000000 + 0x1000) ≠ 0x08001000 := by
  refine ⟨?_, ?_, ?_, by decide, by decide, by decide, by decide⟩
  · obtain ⟨r, cs, hr, hcs, hcs2, hlen, hret⟩ :=
      LoadModule_build (threeModules hugeBssFile textOnlyFile textOnlyFile) storedBlock
        zeroBeyond "dir\\rtld" 0x08000000 hugeBssFile _
        (List.replicate 0x20 0) [] [] (by simp [open_linput, threeModules])
        (readNsoHeader_of_valid hugeBssFile (by decide)) (by decide) (by decide) (by decide)
    have hb : cs.bss_size = 0xF7FFF000 := by rw [hcs2]; decide
    have hl : cs.memory.length = 0xF8000000 := by rw [hlen, hb]; decide
    exact ⟨r, cs, hr, hcs, hl, by rw [hret, hl]; decide⟩
  · obtain ⟨r, cs, hr, hcs, hcs2, hlen, _⟩ :=
      LoadModule_build (threeModules hugeBssFile textOnlyFile textOnlyFile) storedBlock
        zeroBeyond "dir\\main" 0x08000000 textOnlyFile _
        (List.replicate 0x20 0) [] [] (by simp [open_linput, threeModules])
        (readNsoHeader_of_valid textOnlyFile (by decide)) (by decide) (by decide) (by decide)
    have hb : cs.bss_size = 0 := by rw [hcs2]; decide
    exact ⟨r, cs, hr, hcs, by rw [hlen, hb]; decide⟩
  · obtain ⟨r, cs, hr, hcs, hcs2, hlen, _⟩ :=
      LoadModule_build (threeModules hugeBssFile textOnlyFile textOnlyFile) storedBlock
        zeroBeyond "dir\\subsdk0" 0x08001000 textOnlyFile _
        (List.replicate 0x20 0) [] [] (by simp [open_linput, threeModules])
        (readNsoHeader_of_valid textOnlyFile (by decide)) (by decide) (by decide) (by decide)
    have hb : cs.bss_size = 0 := by rw [hcs2]; decide
    exact ⟨r, cs, hr, hcs, by rw [hlen, hb]; decide⟩

/-- C5 (amended): for every base B and every three containers that each build
successfully with final aligned image sizes s1, s2, s3, provided neither B + s1 nor
B + s1 + s2 is 0 as a 32-bit address (a `LoadModule` result of 0 is what the loop takes
for "not loaded"), the loop of `load_file` passes the base addresses B, B + s1,
B + s1 + s2 (32-bit sums) to the three `LoadModule` calls in order. -/
theorem loadModules_three_bases (fs : String → Option (List uchar))
    (lz4 : List uchar → Int → Int → Int × List uchar) (beyond : Nat → uchar)
    (directory n1 n2 n3 : String) (B s1 s2 s3 : Nat)
    (h1 : ∀ b, ∃ r cs, LoadModule fs lz4 beyond (directory ++ DIR_SEP ++ n1) b = some r ∧
      r.codeset = some cs ∧ cs.memory.length = s1)
    (h2 : ∀ b, ∃ r cs, LoadModule fs lz4 beyond (directory ++ DIR_SEP ++ n2) b = some r ∧
      r.codeset = some cs ∧ cs.memory.length = s2)
    (h3 : ∀ b, ∃ r cs, LoadModule fs lz4 beyond (directory ++ DIR_SEP ++ n3) b = some r ∧
      r.codeset = some cs ∧ cs.memory.length = s3)
    (hz1 : u32 (B + s1) ≠ 0) (hz2 : u32 (B + s1 + s2) ≠ 0) :
    ∃ next calls, loadModules fs lz4 beyond directory B [n1, n2, n3] = some (next, calls) ∧
      calls.map LoadCall.load_addr = [B, u32 (B + s1), u32 (B + s1 + s2)] := by
  obtain ⟨r1, cs1, hr1, hcs1, hl1⟩ := h1 B
  have hret1 : r1.ret = u32 (B + s1) := by
    rw [(LoadModule_ret_of_codeset fs lz4 beyond _ B r1 cs1 hr1 hcs1).1, hl1]
  obtain ⟨r2, cs2, hr2, hcs2, hl2⟩ := h2 (u32 (B + s1))
  have hret2 : r2.ret = u32 (B + s1 + s2) := by
    rw [(LoadModule_ret_of_codeset fs lz4 beyond _ _ r2 cs2 hr2 hcs2).1, hl2]
    simp only [u32]; omega
  obtain ⟨r3, cs3, hr3, _, _⟩ := h3 (u32 (B + s1 + s2))
  have step1 := loadStep_of_ret_ne_zero fs lz4 beyond directory n1 B [] r1 hr1
    (by rw [hret1]; exact hz1)
  have step2 := loadStep_of_ret_ne_zero fs lz4 beyond directory n2 (u32 (B + s1))
    ([] ++ [{ module := n1, load_addr := B, loaded := true }]) r2 hr2
    (by rw [hret2]; exact hz2)
  rw [hret1] at step1
  rw [hret2] at step2
  have hfold : loadModules fs lz4 beyond directory B [n1, n2, n3] =
      loadStep fs lz4 beyond directory (u32 (B + s1 + s2),
        [] ++ [{ module := n1, load_addr := B, loaded := true }]
          ++ [{ module := n2, load_addr := u32 (B + s1), loaded := true }]) n3 := by
    simp only [loadModules, List.foldlM_cons, List.foldlM_nil, step1, Option.bind_eq_bind,
      Option.some_bind, step2]
    simp
  by_cases hz3 : r3.ret = 0
  · have step3 := loadStep_of_ret_zero fs lz4 beyond directory n3 (u32 (B + s1 + s2))
      ([] ++ [{ module := n1, load_addr := B, loaded := true }]
        ++ [{ module := n2, load_addr := u32 (B + s1), loaded := true }]) r3 hr3 hz3
    rw [← hfold] at step3
    exact ⟨_, _, step3, by simp⟩
  · have step3 := loadStep_of_ret_ne_zero fs lz4 beyond directory n3 (u32 (B + s1 + s2))
      ([] ++ [{ module := n1, load_addr := B, loaded := true }]
        ++ [{ module := n2, load_addr := u32 (B + s1), loaded := true }]) r3 hr3 hz3
    rw [← hfold] at step3
    exact ⟨_, _, step3, by simp⟩

/-- Witness of `loadModules_three_bases`: three copies of `textOnlyFile`, each of image
size 0x1000, loaded from 0x08000000. -/
theorem loadModules_three_bases_witness :
    ∃ next calls, loadModules (threeModules textOnlyFile textOnlyFile textOnlyFile)
        storedBlock zeroBeyond "dir" 0x08000000 ["rtld", "main", "subsdk0"] =
          some (next, calls) ∧
      calls.map LoadCall.load_addr = [0x08000000, 0x08001000, 0x08002000] :=
  loadModules_three_bases (threeModules textOnlyFile textOnlyFile textOnlyFile) storedBlock
    zeroBeyond "dir" "rtld" "main" "subsdk0" 0x08000000 0x1000 0x1000 0x1000
    (textOnlyFile_builds _ _ rfl) (textOnlyFile_builds _ _ rfl) (textOnlyFile_builds _ _ rfl)
    (by decide) (by decide)

/-! ## C6 -/

/-- C6: for every successful build, `LoadModule(path, base)` returns `base + L` (the
`VAddr` sum, which is `base + L` itself whenever that is below 2^32), where `L` is the
length of the final image buffer stored in `CodeSet.memory`, and `L` is a multiple of
4096. -/
theorem LoadModule_returns_base_plus_length (fs : String → Option (List uchar))
    (lz4 : List uchar → Int → Int → Int × List uchar) (beyond : Nat → uchar)
    (path : String) (load_base : Nat) (r : LoadResult) (cs : CodeSet)
    (hr : LoadModule fs lz4 beyond path load_base = some r) (hcs : r.codeset = some cs) :
    r.ret = u32 (load_base + cs.memory.length) ∧
    (load_base + cs.memory.length < 2 ^ 32 → r.ret = load_base + cs.memory.length) ∧
    4096 ∣ cs.memory.length := by
  obtain ⟨hret, x, hx⟩ := LoadModule_ret_of_codeset fs lz4 beyond path load_base r cs hr hcs
  refine ⟨hret, ?_, ?_⟩
  · intro hlt
    rw [hret]
    exact Nat.mod_eq_of_lt hlt
  · rw [hx]
    exact Nat.dvd_of_mod_eq_zero (PageAlignSize_mod_page x)

/-- Witness of `LoadModule_returns_base_plus_length`: `textOnlyFile` loaded at 0x08000000
gives an image of 0x1000 bytes and the return value 0x08001000. -/
theorem LoadModule_returns_base_plus_length_witness :
    ∃ r cs, LoadModule (oneFile "main" textOnlyFile) storedBlock zeroBeyond "main"
        0x08000000 = some r ∧ r.codeset = some cs ∧ cs.memory.length = 0x1000 ∧
      r.ret = 0x08001000 ∧
      (r.ret = u32 (0x08000000 + cs.memory.length) ∧
        (0x08000000 + cs.memory.length < 2 ^ 32 → r.ret = 0x08000000 + cs.memory.length) ∧
        4096 ∣ cs.memory.length) := by
  obtain ⟨r, cs, hr, hcs, hlen⟩ :=
    textOnlyFile_builds (oneFile "main" textOnlyFile) "main" rfl 0x08000000
  have h := LoadModule_returns_base_plus_length (oneFile "main" textOnlyFile) storedBlock
    zeroBeyond "main" 0x08000000 r cs hr hcs
  refine ⟨r, cs, hr, hcs, hlen, ?_, h⟩
  rw [h.1, hlen]
  decide

/-! ## C7 -/

/-- C7: for every header whose three segments are read and decompress to exactly their
declared sizes (in particular when their locations are non-overlapping and increasing),
`LoadModule` builds a `CodeSet` whose image length equals
`PageAlignSize(loc2 + size2 + bss_size)`, with `bss_size` the page-aligned final bss size
of the `CodeSet`. -/
theorem image_length_eq (fs : String → Option (List uchar))
    (lz4 : List uchar → Int → Int → Int × List uchar) (beyond : Nat → uchar)
    (path : String) (load_base : Nat) (file : List uchar) (h : NsoHeader)
    (d0 d1 d2 : List uchar)
    (hopen : open_linput fs path = some file) (hhdr : readNsoHeader file = some h)
    (h0 : ReadSegment lz4 file (h.segments 0) (toInt (h.segments_compressed_size 0)) = some d0)
    (h1 : ReadSegment lz4 file (h.segments 1) (toInt (h.segments_compressed_size 1)) = some d1)
    (h2 : ReadSegment lz4 file (h.segments 2) (toInt (h.segments_compressed_size 2)) = some d2)
    (_hl0 : d0.length = (h.segments 0).size) (_hl1 : d1.length = (h.segments 1).size)
    (hl2 : d2.length = (h.segments 2).size) :
    ∃ r cs, LoadModule fs lz4 beyond path load_base = some r ∧ r.codeset = some cs ∧
      4096 ∣ cs.bss_size ∧
      cs.memory.length =
        PageAlignSize ((h.segments 2).location + (h.segments 2).size + cs.bss_size) := by
  obtain ⟨r, cs, hr, hcs, hcs2, hlen, _⟩ :=
    LoadModule_build fs lz4 beyond path load_base file h d0 d1 d2 hopen hhdr h0 h1 h2
  refine ⟨r, cs, hr, hcs, ?_, ?_⟩
  · have hb := (LoadModule_bss_of_codeset fs lz4 beyond path load_base file h r cs hopen hhdr
      hr hcs).2
    rw [hb]
    split <;> exact Nat.dvd_of_mod_eq_zero (PageAlignSize_mod_page _)
  · rw [hlen, hl2]
    apply PageAlignSize_congr
    simp only [u32]
    omega

/-- Witness of `image_length_eq`, the example of the claim: locations 0x0, 0x1000,
0x2000, sizes 0x800, 0x400, 0x200 and bss 0x300 give the bss size
`PageAlignSize(0x300)` = 0x1000 and the image length
`PageAlignSize(0x2000 + 0x200 + PageAlignSize(0x300))` = 0x4000. -/
theorem image_length_eq_witness :
    ∃ r cs, LoadModule (oneFile "main" layoutFile) zeroFill zeroBeyond "main" 0x08000000
        = some r ∧ r.codeset = some cs ∧
      cs.bss_size = PageAlignSize 0x300 ∧
      cs.memory.length = PageAlignSize (0x2000 + 0x200 + PageAlignSize 0x300) ∧
      cs.memory.length = 0x4000 := by
  have hhdr := readNsoHeader_of_valid layoutFile (by decide)
  have e0 : (decodeNsoHeader (layoutFile.take 0x6c)).segments 0 = ⟨0x6c, 0, 0x800, 0⟩ := by
    decide
  have e1 : (decodeNsoHeader (layoutFile.take 0x6c)).segments 1 = ⟨0x6c, 0x1000, 0x400, 0⟩ := by
    decide
  have e2 : (decodeNsoHeader (layoutFile.take 0x6c)).segments 2 =
      ⟨0x6c, 0x2000, 0x200, 0x300⟩ := by
    decide
  have c0 : toInt ((decodeNsoHeader (layoutFile.take 0x6c)).segments_compressed_size 0) = 0 := by
    decide
  have c1 : toInt ((decodeNsoHeader (layoutFile.take 0x6c)).segments_compressed_size 1) = 0 := by
    decide
  have c2 : toInt ((decodeNsoHeader (layoutFile.take 0x6c)).segments_compressed_size 2) = 0 := by
    decide
  have h0 : ReadSegment zeroFill layoutFile ((decodeNsoHeader (layoutFile.take 0x6c)).segments 0)
      (toInt ((decodeNsoHeader (layoutFile.take 0x6c)).segments_compressed_size 0)) =
      some (List.replicate 0x800 0) := by
    rw [e0, c0]; exact ReadSegment_zeroFill _ _ (by decide)
  have h1 : ReadSegment zeroFill layoutFile ((decodeNsoHeader (layoutFile.take 0x6c)).segments 1)
      (toInt ((decodeNsoHeader (layoutFile.take 0x6c)).segments_compressed_size 1)) =
      some (List.replicate 0x400 0) := by
    rw [e1, c1]; exact ReadSegment_zeroFill _ _ (by decide)
  have h2 : ReadSegment zeroFill layoutFile ((decodeNsoHeader (layoutFile.take 0x6c)).segments 2)
      (toInt ((decodeNsoHeader (layoutFile.take 0x6c)).segments_compressed_size 2)) =
      some (List.replicate 0x200 0) := by
    rw [e2, c2]; exact ReadSegment_zeroFill _ _ (by decide)
  obtain ⟨r, cs, hr, hcs, _, hlen⟩ :=
    image_length_eq (oneFile "main" layoutFile) zeroFill zeroBeyond "main" 0x08000000
      layoutFile _ _ _ _ rfl hhdr h0 h1 h2
      (by rw [e0, List.length_replicate]) (by rw [e1, List.length_replicate])
      (by rw [e2, List.length_replicate])
  obtain ⟨r', cs', hr', hcs', hcs2, _, _⟩ :=
    LoadModule_build (oneFile "main" layoutFile) zeroFill zeroBeyond "main" 0x08000000
      layoutFile _ _ _ _ rfl hhdr h0 h1 h2
  rw [hr] at hr'
  cases hr'
  rw [hcs] at hcs'
  cases hcs'
  have hb : cs.bss_size = PageAlignSize 0x300 := by
    rw [hcs2, (finishImage_of_zero _ _ _ _ (assemble_of_zero _ _ _ _
      (fun _ hb => List.eq_of_mem_replicate hb) (fun _ hb => List.eq_of_mem_replicate hb)
      (fun _ hb => List.eq_of_mem_replicate hb))).2, e2]
  rw [e2, hb] at hlen
  exact ⟨r, cs, hr, hcs, hb, hlen, by rw [hlen]; decide⟩

/-! ## C8 -/

/-- C8, as stated, fails.  In `truncFile` the locations decrease (text at 0x2000, data
at 0): placing the data segment truncates the image to the data bytes, and the final
image of 0x1000 bytes is shorter than the text extent 0x2000 + 0x20.  In `wrapBssFile`
the locations increase but the size computation wraps around 32 bits: the final image
is empty although the text segment extends to 0x20. -/
theorem image_too_short_counterexample :
    (readNsoHeader truncFile).map (fun h => ((h.segments 0).location, (h.segments 0).size)) =
      some (0x2000, 0x20) ∧
    (ReadSegment storedBlock truncFile ⟨0x6c, 0x2000, 0x20, 0⟩ 0x20).map List.length =
      some 0x20 ∧
    (∃ r cs, LoadModule (oneFile "main" truncFile) storedBlock zeroBeyond "main" 0x08000000
        = some r ∧ r.codeset = some cs ∧ cs.memory.length = 0x1000 ∧
        cs.memory.length < 0x2000 + 0x20) ∧
    (readNsoHeader wrapBssFile).map (fun h => ((h.segments 0).location, (h.segments 0).size)) =
      some (0, 0x20) ∧
    (LoadModule (oneFile "main" wrapBssFile) storedBlock zeroBeyond "main" 0x08000000).map
      (fun r => r.codeset.map (fun cs => cs.memory.length)) = some (some 0) := by
  refine ⟨by decide, by decide, ?_, by decide, by decide⟩
  have hhdr := readNsoHeader_of_valid truncFile (by decide)
  obtain ⟨r, cs, hr, hcs, hcs2, hlen, _⟩ :=
    LoadModule_build (oneFile "main" truncFile) storedBlock zeroBeyond "main" 0x08000000
      truncFile _ (List.replicate 0x20 0) [] (List.replicate 0x20 0) rfl hhdr
      (by decide) (by decide) (by decide)
  have hb : cs.bss_size = 0 := by
    rw [hcs2]
    have hz := assemble_of_zero (decodeNsoHeader (truncFile.take 0x6c))
      (List.replicate 0x20 0) [] (List.replicate 0x20 0)
      (fun _ hb => List.eq_of_mem_replicate hb) (fun _ hb => absurd hb (List.not_mem_nil _))
      (fun _ hb => List.eq_of_mem_replicate hb)
    rw [(finishImage_of_zero _ _ _ 0 hz).2]
    decide
  have hl : cs.memory.length = 0x1000 := by rw [hlen, hb]; decide
  exact ⟨r, cs, hr, hcs, hl, by rw [hl]; decide⟩

/-- C8 (amended): for every valid header whose three segments are read and decompress to
their declared sizes, whose data segment ends last (location_i + size_i is at most
location_2 + size_2 for the text and rodata segments, as it is for non-overlapping
increasing locations), `LoadModule` builds a `CodeSet`, and when
location_2 + size_2 + bss_size + 4095 is below 2^32 (no 32-bit wrap-around in the size
computation) the final image buffer length is at least location_i + size_i for each of
the three segments. -/
theorem image_contains_segments (fs : String → Option (List uchar))
    (lz4 : List uchar → Int → Int → Int × List uchar) (beyond : Nat → uchar)
    (path : String) (load_base : Nat) (file : List uchar) (h : NsoHeader)
    (d0 d1 d2 : List uchar)
    (hopen : open_linput fs path = some file) (hhdr : readNsoHeader file = some h)
    (h0 : ReadSegment lz4 file (h.segments 0) (toInt (h.segments_compressed_size 0)) = some d0)
    (h1 : ReadSegment lz4 file (h.segments 1) (toInt (h.segments_compressed_size 1)) = some d1)
    (h2 : ReadSegment lz4 file (h.segments 2) (toInt (h.segments_compressed_size 2)) = some d2)
    (_hl0 : d0.length = (h.segments 0).size) (_hl1 : d1.length = (h.segments 1).size)
    (hl2 : d2.length = (h.segments 2).size)
    (hlast0 : (h.segments 0).location + (h.segments 0).size ≤
      (h.segments 2).location + (h.segments 2).size)
    (hlast1 : (h.segments 1).location + (h.segments 1).size ≤
      (h.segments 2).location + (h.segments 2).size) :
    ∃ r cs, LoadModule fs lz4 beyond path load_base = some r ∧ r.codeset = some cs ∧
      ((h.segments 2).location + (h.segments 2).size + cs.bss_size + 4095 < 2 ^ 32 →
        ∀ i : Fin 3, (h.segments i).location + (h.segments i).size ≤ cs.memory.length) := by
  obtain ⟨r, cs, hr, hcs, _, hlen, _⟩ :=
    LoadModule_build fs lz4 beyond path load_base file h d0 d1 d2 hopen hhdr h0 h1 h2
  refine ⟨r, cs, hr, hcs, ?_⟩
  intro hwrap i
  have hle := le_PageAlignSize ((h.segments 2).location + (h.segments 2).size + cs.bss_size)
    hwrap
  have heq : cs.memory.length =
      PageAlignSize ((h.segments 2).location + (h.segments 2).size + cs.bss_size) := by
    rw [hlen, hl2]
    apply PageAlignSize_congr
    simp only [u32]
    omega
  rw [heq]
  have hi : i = 0 ∨ i = 1 ∨ i = 2 := by
    revert i; decide
  rcases hi with hi | hi | hi <;> subst hi <;> omega

/-- Witness of `image_contains_segments`: in `textOnlyFile` (locations 0, 0x20, 0x20,
sizes 0x20, 0, 0, bss 0) every segment ends at 0x20 and the image has 0x1000 bytes. -/
theorem image_contains_segments_witness :
    ∃ r cs, LoadModule (oneFile "main" textOnlyFile) storedBlock zeroBeyond "main"
        0x08000000 = some r ∧ r.codeset = some cs ∧ cs.memory.length = 0x1000 ∧
      ∀ i : Fin 3, ((decodeNsoHeader (textOnlyFile.take 0x6c)).segments i).location +
        ((decodeNsoHeader (textOnlyFile.take 0x6c)).segments i).size ≤ cs.memory.length := by
  obtain ⟨r, cs, hr, hcs, himp⟩ :=
    image_contains_segments (oneFile "main" textOnlyFile) storedBlock zeroBeyond "main"
      0x08000000 textOnlyFile _ (List.replicate 0x20 0) [] [] rfl
      (readNsoHeader_of_valid textOnlyFile (by decide)) (by decide) (by decide) (by decide)
      (by decide) (by decide) (by decide) (by decide) (by decide)
  obtain ⟨r', cs', hr', hcs', hlen⟩ :=
    textOnlyFile_builds (oneFile "main" textOnlyFile) "main" rfl 0x08000000
  rw [hr] at hr'
  cases hr'
  rw [hcs] at hcs'
  cases hcs'
  obtain ⟨r'', cs'', hr'', hcs'', hcs2, _, _⟩ :=
    LoadModule_build (oneFile "main" textOnlyFile) storedBlock zeroBeyond "main" 0x08000000
      textOnlyFile _ (List.replicate 0x20 0) [] [] rfl
      (readNsoHeader_of_valid textOnlyFile (by decide)) (by decide) (by decide) (by decide)
  rw [hr] at hr''
  cases hr''
  rw [hcs] at hcs''
  cases hcs''
  have hb : cs.bss_size = 0 := by rw [hcs2]; decide
  exact ⟨r, cs, hr, hcs, hlen, himp (by rw [hb]; decide)⟩

/-! ## C9 -/

/-- C9, as stated, fails: `bssFieldsFile` carries 0x300 in the bss slot of the data
segment descriptor and 0x5000 in the trailing `bss_size` field of the header, and holds
no MOD0 structure; the final `bss_size` is `PageAlignSize(0x300)` = 0x1000, not
`PageAlignSize(0x5000)` = 0x5000. -/
theorem bss_size_header_field_counterexample :
    (readNsoHeader bssFieldsFile).map (fun h => (h.bss_size, (h.segments 2).bss_size)) =
      some (0x5000, 0x300) ∧
    (LoadModule (oneFile "main" bssFieldsFile) storedBlock zeroBeyond "main" 0x08000000).map
      (fun r => r.codeset.map (fun cs =>
        (cs.mod_header.magic, cs.has_mod_header, cs.bss_size))) =
      some (some (0, false, 0x1000)) ∧
    MakeMagic 'M' 'O' 'D' '0' ≠ 0 ∧
    PageAlignSize 0x5000 = 0x5000 ∧ PageAlignSize 0x300 = 0x1000 := by
  set_option maxRecDepth 4000 in
  exact ⟨by decide, by decide, by decide, by decide, by decide⟩

/-- C9 (amended): for every assembled image in which the candidate structure at the
self-pointer does not carry the magic MOD0, the final `CodeSet.bss_size` equals
`PageAlignSize(segments[2].bss_size)`, the bss slot of the data segment descriptor; it
equals `PageAlignSize(header.bss_size)` of the trailing header field whenever the two
fields hold the same value. -/
theorem bss_size_fallback (fs : String → Option (List uchar))
    (lz4 : List uchar → Int → Int → Int × List uchar) (beyond : Nat → uchar)
    (path : String) (load_base : Nat) (file : List uchar) (h : NsoHeader)
    (r : LoadResult) (cs : CodeSet)
    (hopen : open_linput fs path = some file) (hhdr : readNsoHeader file = some h)
    (hr : LoadModule fs lz4 beyond path load_base = some r) (hcs : r.codeset = some cs)
    (hmagic : cs.mod_header.magic ≠ MakeMagic 'M' 'O' 'D' '0') :
    cs.bss_size = PageAlignSize (h.segments 2).bss_size ∧
    ((h.segments 2).bss_size = h.bss_size → cs.bss_size = PageAlignSize h.bss_size) := by
  obtain ⟨hflag, hbss⟩ :=
    LoadModule_bss_of_codeset fs lz4 beyond path load_base file h r cs hopen hhdr hr hcs
  have hfalse : cs.has_mod_header = false := by
    rw [hflag]; simpa using hmagic
  rw [hfalse] at hbss
  have hval : cs.bss_size = PageAlignSize (h.segments 2).bss_size := by simpa using hbss
  exact ⟨hval, fun he => by rw [hval, he]⟩

/-- Witness of `bss_size_fallback`: `bssFieldsFile`, whose image holds no MOD0. -/
theorem bss_size_fallback_witness :
    ∃ r cs, LoadModule (oneFile "main" bssFieldsFile) storedBlock zeroBeyond "main"
        0x08000000 = some r ∧ r.codeset = some cs ∧
      cs.mod_header.magic ≠ MakeMagic 'M' 'O' 'D' '0' ∧
      (cs.bss_size =
          PageAlignSize ((decodeNsoHeader (bssFieldsFile.take 0x6c)).segments 2).bss_size ∧
        (((decodeNsoHeader (bssFieldsFile.take 0x6c)).segments 2).bss_size =
            (decodeNsoHeader (bssFieldsFile.take 0x6c)).bss_size →
          cs.bss_size = PageAlignSize (decodeNsoHeader (bssFieldsFile.take 0x6c)).bss_size)) := by
  have hhdr := readNsoHeader_of_valid bssFieldsFile (by decide)
  obtain ⟨r, cs, hr, hcs, hcs2, _, _⟩ :=
    LoadModule_build (oneFile "main" bssFieldsFile) storedBlock zeroBeyond "main" 0x08000000
      bssFieldsFile _ (List.replicate 0x20 0) [] [] rfl hhdr
      (by decide) (by decide) (by decide)
  have hmagic : cs.mod_header.magic ≠ MakeMagic 'M' 'O' 'D' '0' := by rw [hcs2]; decide
  exact ⟨r, cs, hr, hcs, hmagic,
    bss_size_fallback (oneFile "main" bssFieldsFile) storedBlock zeroBeyond "main" 0x08000000
      bssFieldsFile _ r cs rfl hhdr hr hcs hmagic⟩

/-! ## C10 -/

/-- C10: for every assembled image in which the candidate structure at the self-pointer
(the structure copied into `CodeSet.mod_header`) does not carry the magic MOD0, the final
`CodeSet.bss_size` equals `PageAlignSize` of the fourth field of the data segment
descriptor (`segments[2].bss_size`, the alignment-or-bss slot), and `has_mod_header` is
false. -/
theorem bss_size_from_data_segment (fs : String → Option (List uchar))
    (lz4 : List uchar → Int → Int → Int × List uchar) (beyond : Nat → uchar)
    (path : String) (load_base : Nat) (file : List uchar) (h : NsoHeader)
    (r : LoadResult) (cs : CodeSet)
    (hopen : open_linput fs path = some file) (hhdr : readNsoHeader file = some h)
    (hr : LoadModule fs lz4 beyond path load_base = some r) (hcs : r.codeset = some cs)
    (hmagic : cs.mod_header.magic ≠ MakeMagic 'M' 'O' 'D' '0') :
    cs.bss_size = PageAlignSize (h.segments 2).alignment ∧ cs.has_mod_header = false := by
  obtain ⟨hflag, hbss⟩ :=
    LoadModule_bss_of_codeset fs lz4 beyond path load_base file h r cs hopen hhdr hr hcs
  have hfalse : cs.has_mod_header = false := by
    rw [hflag]; simpa using hmagic
  rw [hfalse] at hbss
  exact ⟨by simpa [NsoSegmentHeader.alignment] using hbss, hfalse⟩

/-- Witness of `bss_size_from_data_segment`: `bssFieldsFile` gives the bss size
`PageAlignSize(0x300)` = 0x1000 and no metadata header. -/
theorem bss_size_from_data_segment_witness :
    ∃ r cs, LoadModule (oneFile "main" bssFieldsFile) storedBlock zeroBeyond "main"
        0x08000000 = some r ∧ r.codeset = some cs ∧
      cs.mod_header.magic ≠ MakeMagic 'M' 'O' 'D' '0' ∧
      cs.bss_size = PageAlignSize 0x300 ∧ cs.has_mod_header = false := by
  have hhdr := readNsoHeader_of_valid bssFieldsFile (by decide)
  obtain ⟨r, cs, hr, hcs, hcs2, _, _⟩ :=
    LoadModule_build (oneFile "main" bssFieldsFile) storedBlock zeroBeyond "main" 0x08000000
      bssFieldsFile _ (List.replicate 0x20 0) [] [] rfl hhdr
      (by decide) (by decide) (by decide)
  have hmagic : cs.mod_header.magic ≠ MakeMagic 'M' 'O' 'D' '0' := by rw [hcs2]; decide
  have h := bss_size_from_data_segment (oneFile "main" bssFieldsFile) storedBlock zeroBeyond
    "main" 0x08000000 bssFieldsFile _ r cs rfl hhdr hr hcs hmagic
  have e2 : ((decodeNsoHeader (bssFieldsFile.take 0x6c)).segments 2).alignment = 0x300 := by
    decide
  rw [e2] at h
  exact ⟨r, cs, hr, hcs, hmagic, h⟩

/-! ## C11 -/

/-- C11: for every assembled image in which the 0x1c-byte structure at the self-pointer
offset (the value of image bytes 4..7) lies inside the buffer and the magic of that
structure equals MOD0, `has_mod_header` is true, `CodeSet.mod_header` holds the bss bounds
stored in the buffer, and `CodeSet.bss_size` is
`PageAlignSize(bss_end_offset - bss_start_offset)` with the subtraction taken in 32 bits,
whatever the fallback bss field of the header is. -/
theorem bss_size_from_mod_header (fs : String → Option (List uchar))
    (lz4 : List uchar → Int → Int → Int × List uchar) (beyond : Nat → uchar)
    (path : String) (load_base : Nat) (file : List uchar) (h : NsoHeader)
    (d0 d1 d2 : List uchar)
    (hopen : open_linput fs path = some file) (hhdr : readNsoHeader file = some h)
    (h0 : ReadSegment lz4 file (h.segments 0) (toInt (h.segments_compressed_size 0)) = some d0)
    (h1 : ReadSegment lz4 file (h.segments 1) (toInt (h.segments_compressed_size 1)) = some d1)
    (h2 : ReadSegment lz4 file (h.segments 2) (toInt (h.segments_compressed_size 2)) = some d2)
    (hin : le32 (assemble h d0 d1 d2).1 4 + sizeof_ModHeader ≤ (assemble h d0 d1 d2).1.length)
    (hmagic : le32 (assemble h d0 d1 d2).1 (le32 (assemble h d0 d1 d2).1 4) =
      MakeMagic 'M' 'O' 'D' '0') :
    ∃ r cs, LoadModule fs lz4 beyond path load_base = some r ∧ r.codeset = some cs ∧
      cs.has_mod_header = true ∧
      cs.mod_header.bss_start_offset =
        le32 (assemble h d0 d1 d2).1 (le32 (assemble h d0 d1 d2).1 4 + 8) ∧
      cs.mod_header.bss_end_offset =
        le32 (assemble h d0 d1 d2).1 (le32 (assemble h d0 d1 d2).1 4 + 12) ∧
      cs.bss_size = PageAlignSize
        (u32 (cs.mod_header.bss_end_offset + 2 ^ 32 - cs.mod_header.bss_start_offset)) := by
  obtain ⟨r, cs, hr, hcs, hcs2, _, _⟩ :=
    LoadModule_build fs lz4 beyond path load_base file h d0 d1 d2 hopen hhdr h0 h1 h2
  have hsz : sizeof_ModHeader = 0x1c := rfl
  have hp : le32 (memcpy (assemble h d0 d1 d2).1 beyond 4 4) 0 =
      le32 (assemble h d0 d1 d2).1 4 :=
    le32_memcpy_of_le _ beyond 4 4 0 (by rw [hsz] at hin; omega) (by omega)
  have hmh : cs.mod_header = decodeModHeader (memcpy (assemble h d0 d1 d2).1 beyond
      (le32 (assemble h d0 d1 d2).1 4) sizeof_ModHeader) := by
    rw [hcs2, finishImage_mod_header, hp]
  have hm : cs.mod_header.magic = MakeMagic 'M' 'O' 'D' '0' := by
    rw [hmh]
    simp only [decodeModHeader]
    rw [le32_memcpy_of_le _ beyond _ _ 0 hin (by rw [hsz]; omega)]
    exact hmagic
  have hs : cs.mod_header.bss_start_offset =
      le32 (assemble h d0 d1 d2).1 (le32 (assemble h d0 d1 d2).1 4 + 8) := by
    rw [hmh]
    simp only [decodeModHeader]
    exact le32_memcpy_of_le _ beyond _ _ 8 hin (by rw [hsz]; omega)
  have he : cs.mod_header.bss_end_offset =
      le32 (assemble h d0 d1 d2).1 (le32 (assemble h d0 d1 d2).1 4 + 12) := by
    rw [hmh]
    simp only [decodeModHeader]
    exact le32_memcpy_of_le _ beyond _ _ 12 hin (by rw [hsz]; omega)
  obtain ⟨hflag, hbss⟩ :=
    LoadModule_bss_of_codeset fs lz4 beyond path load_base file h r cs hopen hhdr hr hcs
  have htrue : cs.has_mod_header = true := by
    rw [hflag, hm]; simp
  rw [htrue] at hbss
  exact ⟨r, cs, hr, hcs, htrue, hs, he, by simpa using hbss⟩

/-- Witness of `bss_size_from_mod_header`: in `modFile` the self-pointer is 8, the
structure at 8 carries MOD0 with bss bounds 0x1000 and 0x3000, the fallback field is
0x300, and the bss size is `PageAlignSize(0x3000 - 0x1000)` = 0x2000. -/
theorem bss_size_from_mod_header_witness :
    ∃ r cs, LoadModule (oneFile "main" modFile) storedBlock zeroBeyond "main" 0x08000000
        = some r ∧ r.codeset = some cs ∧ cs.has_mod_header = true ∧
      cs.mod_header.bss_start_offset = 0x1000 ∧ cs.mod_header.bss_end_offset = 0x3000 ∧
      cs.bss_size = 0x2000 ∧
      ((decodeNsoHeader (modFile.take 0x6c)).segments 2).bss_size = 0x300 := by
  set_option maxRecDepth 4000 in
  obtain ⟨r, cs, hr, hcs, htrue, hs, he, hbss⟩ :=
    bss_size_from_mod_header (oneFile "main" modFile) storedBlock zeroBeyond "main" 0x08000000
      modFile _ (modText 8) [1, 2, 3, 4] [5, 6, 7, 8] rfl
      (readNsoHeader_of_valid modFile (by decide)) (by decide) (by decide) (by decide)
      (by decide) (by decide)
  have hs' : cs.mod_header.bss_start_offset = 0x1000 := by rw [hs]; decide
  have he' : cs.mod_header.bss_end_offset = 0x3000 := by rw [he]; decide
  refine ⟨r, cs, hr, hcs, htrue, hs', he', ?_, by decide⟩
  rw [hbss, hs', he']
  decide

/-! ## C12 -/

/-- C12 (the code at the failing input): the image of `farPointerFile` has 0x20 bytes and
its self-pointer is 0x100, so 0x100 + 0x1c exceeds the buffer length.  The structure is
copied from outside the buffer all the same: with zero bytes there the header is reported
absent, with the bytes of a MOD0 structure there (`craftedBeyond`) `has_mod_header` is true
and the bss size is 0x2000 instead of the fallback `PageAlignSize(0x300)` = 0x1000. -/
theorem LoadModule_reads_past_buffer :
    (placeSegments storedBlock farPointerFile
        (decodeNsoHeader (farPointerFile.take 0x6c))).map
      (fun st => (st.1.length, le32 st.1 4)) = some (0x20, 0x100) ∧
    0x20 < 0x100 + sizeof_ModHeader ∧
    (LoadModule (oneFile "main" farPointerFile) storedBlock zeroBeyond "main"
        0x08000000).map (fun r => r.codeset.map (fun cs => (cs.has_mod_header, cs.bss_size)))
      = some (some (false, 0x1000)) ∧
    (LoadModule (oneFile "main" farPointerFile) storedBlock craftedBeyond "main"
        0x08000000).map (fun r => r.codeset.map (fun cs => (cs.has_mod_header, cs.bss_size)))
      = some (some (true, 0x2000)) := by
  set_option maxRecDepth 8000 in
  exact ⟨by decide, by decide, by decide, by decide⟩

/-! ## C13 -/

/-- C13: `PageAlignSize(PageAlignSize(x)) = PageAlignSize(x)` for every x (the argument is
taken as a 32-bit value), and `PageAlignSize(0) = 0`. -/
theorem PageAlignSize_idempotent (x : Nat) :
    PageAlignSize (PageAlignSize x) = PageAlignSize x ∧ PageAlignSize 0 = 0 := by
  refine ⟨?_, by decide⟩
  rw [PageAlignSize_eq (PageAlignSize x), PageAlignSize_eq x]
  omega

/-! ## C14 -/

/-- C14, as stated, fails on `load_file`: rtld builds an image of 0xF8001000 bytes at
0x08000000, whose end wraps around to 0x1000; main (image of 0x08001000 bytes) is then
passed the base 0x1000, below the base of rtld, and its range [0x1000, 0x08002000)
contains the address 0x08000000 at which the image of rtld starts. -/
theorem load_file_wrap_counterexample :
    (∃ r cs, LoadModule (threeModules wrapRtldFile wideMainFile textOnlyFile) storedBlock
        zeroBeyond "dir\\rtld" 0x08000000 = some r ∧ r.codeset = some cs ∧
        cs.memory.length = 0xF8001000 ∧ r.ret = 0x1000) ∧
    (∃ r cs, LoadModule (threeModules wrapRtldFile wideMainFile textOnlyFile) storedBlock
        zeroBeyond "dir\\main" 0x1000 = some r ∧ r.codeset = some cs ∧
        cs.memory.length = 0x08001000 ∧ r.ret = 0x08002000) ∧
    (load_file (threeModules wrapRtldFile wideMainFile textOnlyFile) storedBlock zeroBeyond
        "dir").map (fun st => st.2.take 3) =
      some [{ module := "rtld", load_addr := 0x08000000, loaded := true },
            { module := "main", load_addr := 0x1000, loaded := true },
            { module := "subsdk0", load_addr := 0x08002000, loaded := true }] ∧
    (0x1000 : Nat) < 0x08000000 ∧
    (0x08000000 ≤ 0x08000000 ∧ 0x08000000 < 0x08000000 + 0xF8001000) ∧
    (0x1000 ≤ 0x08000000 ∧ 0x08000000 < 0x1000 + 0x08001000) := by
  refine ⟨?_, ?_, by decide, by decide, by decide, by decide⟩
  · obtain ⟨r, cs, hr, hcs, hcs2, hlen, hret⟩ :=
      LoadModule_build (threeModules wrapRtldFile wideMainFile textOnlyFile) storedBlock
        zeroBeyond "dir\\rtld" 0x08000000 wrapRtldFile _
        (List.replicate 0x20 0) [] [] (by simp [open_linput, threeModules])
        (readNsoHeader_of_valid wrapRtldFile (by decide)) (by decide) (by decide) (by decide)
    have hb : cs.bss_size = 0xF8000000 := by rw [hcs2]; decide
    have hl : cs.memory.length = 0xF8001000 := by rw [hlen, hb]; decide
    exact ⟨r, cs, hr, hcs, hl, by rw [hret, hl]; decide⟩
  · obtain ⟨r, cs, hr, hcs, hcs2, hlen, hret⟩ :=
      LoadModule_build (threeModules wrapRtldFile wideMainFile textOnlyFile) storedBlock
        zeroBeyond "dir\\main" 0x1000 wideMainFile _
        (List.replicate 0x20 0) [] [] (by simp [open_linput, threeModules])
        (readNsoHeader_of_valid wideMainFile (by decide)) (by decide) (by decide) (by decide)
    have hb : cs.bss_size = 0x08000000 := by rw [hcs2]; decide
    have hl : cs.memory.length = 0x08001000 := by rw [hlen, hb]; decide
    exact ⟨r, cs, hr, hcs, hl, by rw [hret, hl]; decide⟩

/-- C14 (amended): for every run of the loop of `load_file` (any base, any list of
names, each container loaded or skipped) in which no image extends past the end of the
32-bit address space (base_i + size_i < 2^32 for every call, size_i being 0 for a skipped
container), the base addresses passed to successive `LoadModule` calls are
non-decreasing, and every call starts at or after the end of the image of every earlier
call, so the ranges [base_i, base_i + size_i) never overlap. -/
theorem loadModules_ranges_disjoint (fs : String → Option (List uchar))
    (lz4 : List uchar → Int → Int → Int × List uchar) (beyond : Nat → uchar)
    (directory : String) (base : Nat) (modules : List String)
    (next : Nat) (calls : List LoadCall)
    (hrun : loadModules fs lz4 beyond directory base modules = some (next, calls))
    (hnowrap : ∀ c ∈ calls, c.load_addr + imageSizeAt fs lz4 beyond directory c < 2 ^ 32) :
    calls.map LoadCall.module = modules ∧
    List.Pairwise (fun c c' => c.load_addr ≤ c'.load_addr ∧
      c.load_addr + imageSizeAt fs lz4 beyond directory c ≤ c'.load_addr) calls ∧
    ∀ c ∈ calls, c.load_addr + imageSizeAt fs lz4 beyond directory c ≤ next := by
  obtain ⟨new, hnew, hmap⟩ :=
    foldlM_loadStep_prefix fs lz4 beyond directory modules (base, []) (next, calls) hrun
  have hinv := foldlM_loadStep_ranges fs lz4 beyond directory modules (base, []) (next, calls)
    hrun hnowrap List.Pairwise.nil (by simp)
  refine ⟨?_, hinv.1, hinv.2⟩
  simp only [List.nil_append] at hnew
  rw [hnew, hmap]

/-- Witness of `loadModules_ranges_disjoint`: `load_file` on a directory holding three
copies of `textOnlyFile` (image size 0x1000 each) as rtld, main and subsdk0. -/
theorem loadModules_ranges_disjoint_witness :
    load_file (threeModules textOnlyFile textOnlyFile textOnlyFile) storedBlock zeroBeyond
        "dir" =
      some (0x08003000,
        [{ module := "rtld", load_addr := 0x08000000, loaded := true },
         { module := "main", load_addr := 0x08001000, loaded := true },
         { module := "subsdk0", load_addr := 0x08002000, loaded := true },
         { module := "subsdk1", load_addr := 0x08003000, loaded := false },
         { module := "subsdk2", load_addr := 0x08003000, loaded := false },
         { module := "subsdk3", load_addr := 0x08003000, loaded := false },
         { module := "subsdk4", load_addr := 0x08003000, loaded := false },
         { module := "subsdk5", load_addr := 0x08003000, loaded := false },
         { module := "subsdk6", load_addr := 0x08003000, loaded := false },
         { module := "subsdk7", load_addr := 0x08003000, loaded := false },
         { module := "sdk", load_addr := 0x08003000, loaded := false }]) ∧
    List.Pairwise (fun c c' => c.load_addr ≤ c'.load_addr ∧
      c.load_addr + imageSizeAt (threeModules textOnlyFile textOnlyFile textOnlyFile)
        storedBlock zeroBeyond "dir" c ≤ c'.load_addr)
      [{ module := "rtld", load_addr := 0x08000000, loaded := true },
       { module := "main", load_addr := 0x08001000, loaded := true },
       { module := "subsdk0", load_addr := 0x08002000, loaded := true },
       { module := "subsdk1", load_addr := 0x08003000, loaded := false },
       { module := "subsdk2", load_addr := 0x08003000, loaded := false },
       { module := "subsdk3", load_addr := 0x08003000, loaded := false },
       { module := "subsdk4", load_addr := 0x08003000, loaded := false },
       { module := "subsdk5", load_addr := 0x08003000, loaded := false },
       { module := "subsdk6", load_addr := 0x08003000, loaded := false },
       { module := "subsdk7", load_addr := 0x08003000, loaded := false },
       { module := "sdk", load_addr := 0x08003000, loaded := false }] := by
  have hrun : load_file (threeModules textOnlyFile textOnlyFile textOnlyFile) storedBlock
      zeroBeyond "dir" = some (0x08003000,
        [{ module := "rtld", load_addr := 0x08000000, loaded := true },
         { module := "main", load_addr := 0x08001000, loaded := true },
         { module := "subsdk0", load_addr := 0x08002000, loaded := true },
         { module := "subsdk1", load_addr := 0x08003000, loaded := false },
         { module := "subsdk2", load_addr := 0x08003000, loaded := false },
         { module := "subsdk3", load_addr := 0x08003000, loaded := false },
         { module := "subsdk4", load_addr := 0x08003000, loaded := false },
         { module := "subsdk5", load_addr := 0x08003000, loaded := false },
         { module := "subsdk6", load_addr := 0x08003000, loaded := false },
         { module := "subsdk7", load_addr := 0x08003000, loaded := false },
         { module := "sdk", load_addr := 0x08003000, loaded := false }]) := by
    set_option maxRecDepth 8000 in
    decide
  refine ⟨hrun, ?_⟩
  refine (loadModules_ranges_disjoint (threeModules textOnlyFile textOnlyFile textOnlyFile)
    storedBlock zeroBeyond "dir" PROCESS_IMAGE_VADDR moduleNames _ _ hrun ?_).2.1
  intro c hc
  simp only [List.mem_cons, List.mem_singleton, List.not_mem_nil, or_false] at hc
  rcases hc with rfl | rfl | rfl | rfl | rfl | rfl | rfl | rfl | rfl | rfl | rfl
  · rw [imageSizeAt_textOnlyFile]
    · decide
    · rfl
  · rw [imageSizeAt_textOnlyFile]
    · decide
    · rfl
  · rw [imageSizeAt_textOnlyFile]
    · decide
    · rfl
  all_goals
    rw [imageSizeAt_of_open_none]
    · decide
    · rfl

/-! ## C15 -/

/-- C15, as stated, fails: the locations of `wrapBssFile` are non-overlapping and
increasing (text 0x20 bytes at 0, empty rodata and data at 0x20) and its segments
decompress to their declared sizes, but the bss size 0xFFFFF000 makes the 32-bit size
computation wrap to 0: the final image is empty and holds none of the 0x20 text bytes. -/
theorem image_contents_counterexample :
    (readNsoHeader wrapBssFile).map (fun h =>
      ((h.segments 0).location, (h.segments 0).size, (h.segments 1).location,
        (h.segments 1).size, (h.segments 2).location, (h.segments 2).size)) =
      some (0, 0x20, 0x20, 0, 0x20, 0) ∧
    (storedBlock (qlread wrapBssFile 0x6c 0x20) 0x20 0x20).1 = 0x20 ∧
    (ReadSegment storedBlock wrapBssFile ⟨0x6c, 0, 0x20, 0⟩ 0x20).map List.length = some 0x20 ∧
    (LoadModule (oneFile "main" wrapBssFile) storedBlock zeroBeyond "main" 0x08000000).map
      (fun r => r.codeset.map (fun cs => (cs.bss_size, cs.memory))) =
      some (some (0xFFFFF000, [])) := by
  set_option maxRecDepth 8000 in
  exact ⟨by decide, by decide, by decide, by decide⟩

/-- C15 (amended): for every header with non-overlapping increasing segment locations
(loc0 + size0 <= loc1, loc1 + size1 <= loc2) whose segments decompress to byte strings d0,
d1, d2 of their declared sizes, `LoadModule` builds a `CodeSet`, and when
loc2 + size2 + bss_size + 4095 is below 2^32 (no 32-bit wrap-around in the size
computation) the final image is zero bytes up to loc0, d0, zero bytes up to loc1, d1, zero
bytes up to loc2, d2, and zero bytes up to the image length: it holds d_i at
[loc_i, loc_i + size_i) and zero everywhere else. -/
theorem image_contents (fs : String → Option (List uchar))
    (lz4 : List uchar → Int → Int → Int × List uchar) (beyond : Nat → uchar)
    (path : String) (load_base : Nat) (file : List uchar) (h : NsoHeader)
    (d0 d1 d2 : List uchar)
    (hopen : open_linput fs path = some file) (hhdr : readNsoHeader file = some h)
    (h0 : ReadSegment lz4 file (h.segments 0) (toInt (h.segments_compressed_size 0)) = some d0)
    (h1 : ReadSegment lz4 file (h.segments 1) (toInt (h.segments_compressed_size 1)) = some d1)
    (h2 : ReadSegment lz4 file (h.segments 2) (toInt (h.segments_compressed_size 2)) = some d2)
    (hl0 : d0.length = (h.segments 0).size) (hl1 : d1.length = (h.segments 1).size)
    (hl2 : d2.length = (h.segments 2).size)
    (h01 : (h.segments 0).location + (h.segments 0).size ≤ (h.segments 1).location)
    (h12 : (h.segments 1).location + (h.segments 1).size ≤ (h.segments 2).location) :
    ∃ r cs, LoadModule fs lz4 beyond path load_base = some r ∧ r.codeset = some cs ∧
      ((h.segments 2).location + (h.segments 2).size + cs.bss_size + 4095 < 2 ^ 32 →
        (h.segments 2).location + (h.segments 2).size ≤ cs.memory.length ∧
        cs.memory =
          List.replicate (h.segments 0).location 0 ++ d0
            ++ List.replicate
              ((h.segments 1).location - ((h.segments 0).location + (h.segments 0).size)) 0
            ++ d1
            ++ List.replicate
              ((h.segments 2).location - ((h.segments 1).location + (h.segments 1).size)) 0
            ++ d2
            ++ List.replicate
              (cs.memory.length - ((h.segments 2).location + (h.segments 2).size)) 0) := by
  obtain ⟨r, cs, hr, hcs, hcs2, hlen, _⟩ :=
    LoadModule_build fs lz4 beyond path load_base file h d0 d1 d2 hopen hhdr h0 h1 h2
  refine ⟨r, cs, hr, hcs, ?_⟩
  intro hwrap
  have hle := le_PageAlignSize ((h.segments 2).location + (h.segments 2).size + cs.bss_size)
    hwrap
  have heq : cs.memory.length =
      PageAlignSize ((h.segments 2).location + (h.segments 2).size + cs.bss_size) := by
    rw [hlen, hl2]
    apply PageAlignSize_congr
    simp only [u32]
    omega
  have hlong : (h.segments 2).location + (h.segments 2).size ≤ cs.memory.length := by
    rw [heq]; omega
  refine ⟨hlong, ?_⟩
  have hmem : cs.memory = resize (assemble h d0 d1 d2).1 cs.memory.length := by
    have := finishImage_memory beyond h (assemble h d0 d1 d2).1 (assemble h d0 d1 d2).2 0
    rw [← hcs2] at this
    exact this
  have himg := assemble_of_ordered h d0 d1 d2 (by rw [hl0]; exact h01) (by rw [hl1]; exact h12)
  rw [hl0, hl1] at himg
  have hil : (assemble h d0 d1 d2).1.length = (h.segments 2).location + (h.segments 2).size := by
    rw [length_assemble, hl2]
  calc cs.memory
      = resize (assemble h d0 d1 d2).1 cs.memory.length := hmem
    _ = (assemble h d0 d1 d2).1
          ++ List.replicate (cs.memory.length - (assemble h d0 d1 d2).1.length) 0 :=
        resize_of_le _ _ (by rw [hil]; exact hlong)
    _ = _ := by rw [hil, himg]

/-- Witness of `image_contents`: `modFile` (text `modText 8` at 0, rodata 1, 2, 3, 4 at
0x30, data 5, 6, 7, 8 at 0x40, bss 0x2000) gives an image of 0x3000 bytes made of the
text, 12 zero bytes, the rodata, 12 zero bytes, the data and 0x2fbc zero bytes. -/
theorem image_contents_witness :
    ∃ r cs, LoadModule (oneFile "main" modFile) storedBlock zeroBeyond "main" 0x08000000
        = some r ∧ r.codeset = some cs ∧ cs.memory.length = 0x3000 ∧
      cs.memory = modText 8 ++ List.replicate 12 0 ++ [1, 2, 3, 4] ++ List.replicate 12 0
        ++ [5, 6, 7, 8] ++ List.replicate (0x3000 - 0x44) 0 := by
  have hhdr := readNsoHeader_of_valid modFile (by decide)
  have e0 : (decodeNsoHeader (modFile.take 0x6c)).segments 0 = ⟨0x6c, 0, 0x24, 0⟩ := by decide
  have e1 : (decodeNsoHeader (modFile.take 0x6c)).segments 1 = ⟨0x90, 0x30, 4, 0⟩ := by decide
  have e2 : (decodeNsoHeader (modFile.take 0x6c)).segments 2 = ⟨0x94, 0x40, 4, 0x300⟩ := by
    decide
  obtain ⟨r, cs, hr, hcs, himp⟩ :=
    image_contents (oneFile "main" modFile) storedBlock zeroBeyond "main" 0x08000000
      modFile _ (modText 8) [1, 2, 3, 4] [5, 6, 7, 8] rfl hhdr
      (by decide) (by decide) (by decide) (by decide) (by decide) (by decide)
      (by decide) (by decide)
  obtain ⟨r', cs', hr', hcs', hcs2, hlen, _⟩ :=
    LoadModule_build (oneFile "main" modFile) storedBlock zeroBeyond "main" 0x08000000
      modFile _ (modText 8) [1, 2, 3, 4] [5, 6, 7, 8] rfl hhdr
      (by decide) (by decide) (by decide)
  rw [hr] at hr'
  cases hr'
  rw [hcs] at hcs'
  cases hcs'
  have hb : cs.bss_size = 0x2000 := by
    rw [hcs2]
    set_option maxRecDepth 8000 in
    decide
  have hl : cs.memory.length = 0x3000 := by
    rw [hlen, hb, e2]; decide
  have hmem := (himp (by rw [e2, hb]; decide)).2
  rw [e0, e1, e2, hl] at hmem
  exact ⟨r, cs, hr, hcs, hl, hmem⟩

/-! ## C16 -/

/-- C16, as stated, fails: `unalignedDataFile` has a valid header with a data segment of
one byte at location 0x20.  The final image has 0x1000 bytes, while the data segment is
recorded with offset 0x20 and size `PageAlignSize(1)` + bss = 0x1000, so its aligned
region ends at 0x1020, past the end of the image. -/
theorem segment_region_counterexample :
    ∃ r cs, LoadModule (oneFile "main" unalignedDataFile) storedBlock zeroBeyond "main"
        0x08000000 = some r ∧ r.codeset = some cs ∧ cs.memory.length = 0x1000 ∧
      cs.bss_size = 0 ∧
      cs.segments = [{ offset := 0, addr := 0, size := 0x1000 },
                     { offset := 0x20, addr := 0x20, size := 0 },
                     { offset := 0x20, addr := 0x20, size := 0x1000 }] ∧
      cs.memory.length < 0x20 + PageAlignSize 1 ∧
      cs.memory.length < 0x20 + 0x1000 := by
  obtain ⟨r, cs, hr, hcs, hcs2, hlen, _⟩ :=
    LoadModule_build (oneFile "main" unalignedDataFile) storedBlock zeroBeyond "main"
      0x08000000 unalignedDataFile _ (List.replicate 0x20 0) [] [0] rfl
      (readNsoHeader_of_valid unalignedDataFile (by decide))
      (by decide) (by decide) (by decide)
  have hb : cs.bss_size = 0 := by rw [hcs2]; decide
  have hl : cs.memory.length = 0x1000 := by rw [hlen, hb]; decide
  have hs : cs.segments = [{ offset := 0, addr := 0, size := 0x1000 },
                     { offset := 0x20, addr := 0x20, size := 0 },
                     { offset := 0x20, addr := 0x20, size := 0x1000 }] := by
    rw [hcs2]
    set_option maxRecDepth 8000 in
    decide
  exact ⟨r, cs, hr, hcs, hl, hb, hs, by rw [hl]; decide, by rw [hl]; decide⟩

/-- C16 (amended): for every valid header whose segment locations are multiples of 4096,
non-overlapping and increasing (loc0 + size0 <= loc1, loc1 + size1 <= loc2) and whose
segments decompress to their declared sizes, `LoadModule` builds a `CodeSet`, and when
loc2 + size2 + bss_size + 4095 is below 2^32 (no 32-bit wrap-around) the three recorded
segments have offsets loc_i and sizes `PageAlignSize(size_i)`, the data segment with the
bss size added, and each of these regions ends inside the final image:
loc_i + `PageAlignSize(size_i)` <= image length, and for the data segment
loc2 + `PageAlignSize(size2)` + bss_size <= image length. -/
theorem segment_regions_inside (fs : String → Option (List uchar))
    (lz4 : List uchar → Int → Int → Int × List uchar) (beyond : Nat → uchar)
    (path : String) (load_base : Nat) (file : List uchar) (h : NsoHeader)
    (d0 d1 d2 : List uchar)
    (hopen : open_linput fs path = some file) (hhdr : readNsoHeader file = some h)
    (h0 : ReadSegment lz4 file (h.segments 0) (toInt (h.segments_compressed_size 0)) = some d0)
    (h1 : ReadSegment lz4 file (h.segments 1) (toInt (h.segments_compressed_size 1)) = some d1)
    (h2 : ReadSegment lz4 file (h.segments 2) (toInt (h.segments_compressed_size 2)) = some d2)
    (hl0 : d0.length = (h.segments 0).size) (hl1 : d1.length = (h.segments 1).size)
    (hl2 : d2.length = (h.segments 2).size)
    (ha0 : (h.segments 0).location % 4096 = 0) (ha1 : (h.segments 1).location % 4096 = 0)
    (ha2 : (h.segments 2).location % 4096 = 0)
    (h01 : (h.segments 0).location + (h.segments 0).size ≤ (h.segments 1).location)
    (h12 : (h.segments 1).location + (h.segments 1).size ≤ (h.segments 2).location) :
    ∃ r cs, LoadModule fs lz4 beyond path load_base = some r ∧ r.codeset = some cs ∧
      ((h.segments 2).location + (h.segments 2).size + cs.bss_size + 4095 < 2 ^ 32 →
        cs.segments =
          [{ offset := (h.segments 0).location, addr := (h.segments 0).location,
             size := PageAlignSize (h.segments 0).size },
           { offset := (h.segments 1).location, addr := (h.segments 1).location,
             size := PageAlignSize (h.segments 1).size },
           { offset := (h.segments 2).location, addr := (h.segments 2).location,
             size := PageAlignSize (h.segments 2).size + cs.bss_size }] ∧
        (∀ seg ∈ cs.segments, seg.offset + seg.size ≤ cs.memory.length) ∧
        (h.segments 2).location + PageAlignSize (h.segments 2).size ≤ cs.memory.length) := by
  obtain ⟨r, cs, hr, hcs, hcs2, hlen, _⟩ :=
    LoadModule_build fs lz4 beyond path load_base file h d0 d1 d2 hopen hhdr h0 h1 h2
  refine ⟨r, cs, hr, hcs, ?_⟩
  intro hwrap
  have hbmod : cs.bss_size % 4096 = 0 := by
    have hb := (LoadModule_bss_of_codeset fs lz4 beyond path load_base file h r cs hopen hhdr
      hr hcs).2
    rw [hb]
    split <;> exact PageAlignSize_mod_page _
  have heq : cs.memory.length =
      PageAlignSize ((h.segments 2).location + (h.segments 2).size + cs.bss_size) := by
    rw [hlen, hl2]
    apply PageAlignSize_congr
    simp only [u32]
    omega
  have hp0 := PageAlignSize_of_lt (h.segments 0).size (by omega)
  have hp1 := PageAlignSize_of_lt (h.segments 1).size (by omega)
  have hp2 := PageAlignSize_of_lt (h.segments 2).size (by omega)
  have hpl := PageAlignSize_of_lt
    ((h.segments 2).location + (h.segments 2).size + cs.bss_size) hwrap
  have hsegs : cs.segments =
      [{ offset := (h.segments 0).location, addr := (h.segments 0).location,
         size := PageAlignSize (h.segments 0).size },
       { offset := (h.segments 1).location, addr := (h.segments 1).location,
         size := PageAlignSize (h.segments 1).size },
       { offset := (h.segments 2).location, addr := (h.segments 2).location,
         size := PageAlignSize (h.segments 2).size + cs.bss_size }] := by
    have hfs := finishImage_segments beyond h (assemble h d0 d1 d2).1 (assemble h d0 d1 d2).2 0
    rw [← hcs2] at hfs
    rw [hfs]
    have hu : u32 (PageAlignSize (h.segments 2).size + cs.bss_size) =
        PageAlignSize (h.segments 2).size + cs.bss_size := by
      simp only [u32]; omega
    simp [assemble, PageAlignSize_u32, hl0, hl1, hl2, hu]
  refine ⟨hsegs, ?_, by omega⟩
  intro seg hseg
  rw [hsegs] at hseg
  simp only [List.mem_cons, List.mem_singleton, List.not_mem_nil, or_false] at hseg
  rcases hseg with rfl | rfl | rfl <;> simp only <;> omega

/-- Witness of `segment_regions_inside`: the layout of `layoutFile` (locations 0x0,
0x1000, 0x2000, sizes 0x800, 0x400, 0x200, bss 0x1000, image length 0x4000). -/
theorem segment_regions_inside_witness :
    ∃ r cs, LoadModule (oneFile "main" layoutFile) zeroFill zeroBeyond "main" 0x08000000
        = some r ∧ r.codeset = some cs ∧ cs.memory.length = 0x4000 ∧
      cs.segments = [{ offset := 0, addr := 0, size := 0x1000 },
                     { offset := 0x1000, addr := 0x1000, size := 0x1000 },
                     { offset := 0x2000, addr := 0x2000, size := 0x2000 }] ∧
      ∀ seg ∈ cs.segments, seg.offset + seg.size ≤ cs.memory.length := by
  have hhdr := readNsoHeader_of_valid layoutFile (by decide)
  have e0 : (decodeNsoHeader (layoutFile.take 0x6c)).segments 0 = ⟨0x6c, 0, 0x800, 0⟩ := by
    decide
  have e1 : (decodeNsoHeader (layoutFile.take 0x6c)).segments 1 = ⟨0x6c, 0x1000, 0x400, 0⟩ := by
    decide
  have e2 : (decodeNsoHeader (layoutFile.take 0x6c)).segments 2 =
      ⟨0x6c, 0x2000, 0x200, 0x300⟩ := by
    decide
  have c0 : toInt ((decodeNsoHeader (layoutFile.take 0x6c)).segments_compressed_size 0) = 0 := by
    decide
  have c1 : toInt ((decodeNsoHeader (layoutFile.take 0x6c)).segments_compressed_size 1) = 0 := by
    decide
  have c2 : toInt ((decodeNsoHeader (layoutFile.take 0x6c)).segments_compressed_size 2) = 0 := by
    decide
  have h0 : ReadSegment zeroFill layoutFile ((decodeNsoHeader (layoutFile.take 0x6c)).segments 0)
      (toInt ((decodeNsoHeader (layoutFile.take 0x6c)).segments_compressed_size 0)) =
      some (List.replicate 0x800 0) := by
    rw [e0, c0]; exact ReadSegment_zeroFill _ _ (by decide)
  have h1 : ReadSegment zeroFill layoutFile ((decodeNsoHeader (layoutFile.take 0x6c)).segments 1)
      (toInt ((decodeNsoHeader (layoutFile.take 0x6c)).segments_compressed_size 1)) =
      some (List.replicate 0x400 0) := by
    rw [e1, c1]; exact ReadSegment_zeroFill _ _ (by decide)
  have h2 : ReadSegment zeroFill layoutFile ((decodeNsoHeader (layoutFile.take 0x6c)).segments 2)
      (toInt ((decodeNsoHeader (layoutFile.take 0x6c)).segments_compressed_size 2)) =
      some (List.replicate 0x200 0) := by
    rw [e2, c2]; exact ReadSegment_zeroFill _ _ (by decide)
  obtain ⟨r, cs, hr, hcs, himp⟩ :=
    segment_regions_inside (oneFile "main" layoutFile) zeroFill zeroBeyond "main" 0x08000000
      layoutFile _ _ _ _ rfl hhdr h0 h1 h2
      (by rw [e0, List.length_replicate]) (by rw [e1, List.length_replicate])
      (by rw [e2, List.length_replicate]) (by rw [e0]; decide) (by rw [e1]; decide) (by rw [e2]; decide)
      (by rw [e0, e1]; decide) (by rw [e1, e2]; decide)
  obtain ⟨r', cs', hr', hcs', hcs2, hlen, _⟩ :=
    LoadModule_build (oneFile "main" layoutFile) zeroFill zeroBeyond "main" 0x08000000
      layoutFile _ _ _ _ rfl hhdr h0 h1 h2
  rw [hr] at hr'
  cases hr'
  rw [hcs] at hcs'
  cases hcs'
  have hb : cs.bss_size = 0x1000 := by
    rw [hcs2, (finishImage_of_zero _ _ _ _ (assemble_of_zero _ _ _ _
      (fun _ hb => List.eq_of_mem_replicate hb) (fun _ hb => List.eq_of_mem_replicate hb)
      (fun _ hb => List.eq_of_mem_replicate hb))).2, e2]
    decide
  have hl : cs.memory.length = 0x4000 := by
    rw [hlen, hb, e2, List.length_replicate]; decide
  obtain ⟨hsegs, hall, _⟩ := himp (by rw [e2, hb]; decide)
  rw [e0, e1, e2, hb] at hsegs
  exact ⟨r, cs, hr, hcs, hl, hsegs, hall⟩

/-! ## C17 -/

/-- C17: in the loop of `load_file`, whenever `LoadModule` reports a container as failed
because the file is missing, the header is short or the magic is bad, it returns 0 with
no `CodeSet`, the iteration leaves `next_load_addr` at the base address that was passed to
the failed call, and the loop goes on with the remaining names from that same base; the
names are the fixed list rtld, main, subsdk0..subsdk7, sdk. -/
theorem loop_skips_failed_module (fs : String → Option (List uchar))
    (lz4 : List uchar → Int → Int → Int × List uchar) (beyond : Nat → uchar)
    (directory module : String) (rest : List String) (load_addr : Nat)
    (calls : List LoadCall)
    (hfail : ((open_linput fs (directory ++ DIR_SEP ++ module)).bind readNsoHeader).isSome
      = false) :
    (∃ reads, LoadModule fs lz4 beyond (directory ++ DIR_SEP ++ module) load_addr =
      some { ret := 0, codeset := none, reads := reads }) ∧
    loadStep fs lz4 beyond directory (load_addr, calls) module =
      some (load_addr,
        calls ++ [{ module := module, load_addr := load_addr, loaded := false }]) ∧
    List.foldlM (loadStep fs lz4 beyond directory) (load_addr, calls) (module :: rest) =
      List.foldlM (loadStep fs lz4 beyond directory)
        (load_addr, calls ++ [{ module := module, load_addr := load_addr, loaded := false }])
        rest ∧
    (∀ next, loadStep fs lz4 beyond directory
        (load_addr, calls ++ [{ module := module, load_addr := load_addr, loaded := false }])
        next =
      (LoadModule fs lz4 beyond (directory ++ DIR_SEP ++ next) load_addr).bind (fun r =>
        if r.ret ≠ 0 then
          some (r.ret, calls ++ [{ module := module, load_addr := load_addr, loaded := false }]
            ++ [{ module := next, load_addr := load_addr, loaded := true }])
        else
          some (load_addr,
            calls ++ [{ module := module, load_addr := load_addr, loaded := false }]
              ++ [{ module := next, load_addr := load_addr, loaded := false }]))) ∧
    moduleNames = ["rtld", "main", "subsdk0", "subsdk1", "subsdk2", "subsdk3",
      "subsdk4", "subsdk5", "subsdk6", "subsdk7", "sdk"] ∧
    load_file fs lz4 beyond directory =
      List.foldlM (loadStep fs lz4 beyond directory) (PROCESS_IMAGE_VADDR, []) moduleNames := by
  have hload : ∃ reads, LoadModule fs lz4 beyond (directory ++ DIR_SEP ++ module) load_addr =
      some { ret := 0, codeset := none, reads := reads } := by
    cases hopen : open_linput fs (directory ++ DIR_SEP ++ module) with
    | none => exact ⟨[], LoadModule_of_open_none fs lz4 beyond _ load_addr hopen⟩
    | some file =>
      rw [hopen] at hfail
      have hhdr : readNsoHeader file = none := by
        cases h : readNsoHeader file with
        | none => rfl
        | some hd => simp [h] at hfail
      exact ⟨_, LoadModule_of_header_none fs lz4 beyond _ load_addr file hopen hhdr⟩
  obtain ⟨reads, hr⟩ := hload
  have hstep := loadStep_of_ret_zero fs lz4 beyond directory module load_addr calls _ hr rfl
  refine ⟨⟨reads, hr⟩, hstep, ?_, ?_, rfl, rfl⟩
  · rw [List.foldlM_cons, hstep]
    rfl
  · intro next
    simp only [loadStep]
    cases LoadModule fs lz4 beyond (directory ++ DIR_SEP ++ next) load_addr with
    | none => rfl
    | some r => rfl

/-- Witness of `loop_skips_failed_module`: rtld is missing from a directory that holds
only main (`textOnlyFile`); `load_file` passes 0x08000000 to rtld and again to main. -/
theorem loop_skips_failed_module_witness :
    loadStep (oneFile "dir\\main" textOnlyFile) storedBlock zeroBeyond "dir"
        (PROCESS_IMAGE_VADDR, []) "rtld" =
      some (PROCESS_IMAGE_VADDR,
        [] ++ [{ module := "rtld", load_addr := PROCESS_IMAGE_VADDR, loaded := false }]) ∧
    (load_file (oneFile "dir\\main" textOnlyFile) storedBlock zeroBeyond "dir").map
        (fun st => st.2.take 3) =
      some [{ module := "rtld", load_addr := 0x08000000, loaded := false },
            { module := "main", load_addr := 0x08000000, loaded := true },
            { module := "subsdk0", load_addr := 0x08001000, loaded := false }] :=
  ⟨(loop_skips_failed_module (oneFile "dir\\main" textOnlyFile) storedBlock zeroBeyond "dir"
      "rtld" moduleNames.tail PROCESS_IMAGE_VADDR [] (by decide)).2.1,
    by decide⟩

/-! ## C18 -/

/-- C18, as stated, fails for the 32-bit values above 0xFFFFF000: `PageAlignSize` wraps
around to 0 there, which is below the argument. -/
theorem PageAlignSize_wrap_counterexample :
    PageAlignSize 0xFFFFFFFF = 0 ∧ PageAlignSize 0xFFFFF001 = 0 ∧
    ¬ (0xFFFFFFFF ≤ PageAlignSize 0xFFFFFFFF) := by
  decide

/-- C18 (amended): for every x up to 0xFFFFF000, `PageAlignSize(x)` is the least multiple
of 4096 that is greater than or equal to x, so `PageAlignSize(x)` >= x and
`PageAlignSize(x)` - x < 4096. -/
theorem PageAlignSize_least_multiple (x : Nat) (hx : x ≤ 0xFFFFF000) :
    4096 ∣ PageAlignSize x ∧ x ≤ PageAlignSize x ∧ PageAlignSize x - x < 4096 ∧
    ∀ m, 4096 ∣ m → x ≤ m → PageAlignSize x ≤ m := by
  have he := PageAlignSize_of_lt x (by omega)
  refine ⟨Nat.dvd_of_mod_eq_zero (PageAlignSize_mod_page x), by omega, by omega, ?_⟩
  intro m hm hxm
  obtain ⟨k, rfl⟩ := hm
  omega

/-- Witness of `PageAlignSize_least_multiple`: x = 0x3200 gives 0x4000. -/
theorem PageAlignSize_least_multiple_witness :
    PageAlignSize 0x3200 = 0x4000 ∧
    (4096 ∣ PageAlignSize 0x3200 ∧ 0x3200 ≤ PageAlignSize 0x3200 ∧
      PageAlignSize 0x3200 - 0x3200 < 4096 ∧
      ∀ m, 4096 ∣ m → 0x3200 ≤ m → PageAlignSize 0x3200 ≤ m) :=
  ⟨by decide, PageAlignSize_least_multiple 0x3200 (by decide)⟩

/-! ## C19 -/

/-- C19 (the code at the failing input): in `shiftedTextFile` the code segment is
located at 0x40; byte offset 4 of the code segment region (image offset 0x44) holds the
self-pointer 0x48, and the structure at image offset 0x48 carries MOD0.  `LoadModule`
reads the self-pointer at image offset 4 instead, finds 0 there, copies the structure at
image offset 0 (magic 0) and reports no metadata header, with the fallback bss size
`PageAlignSize(0x300)` = 0x1000 instead of 0x2000. -/
theorem LoadModule_self_pointer_offset :
    (readNsoHeader shiftedTextFile).map (fun h => (h.segments 0).location) = some 0x40 ∧
    (placeSegments storedBlock shiftedTextFile
        (decodeNsoHeader (shiftedTextFile.take 0x6c))).map
      (fun st => (st.1.length, le32 st.1 (0x40 + 4), le32 st.1 0x48, le32 st.1 4,
        le32 st.1 0)) =
      some (0x70, 0x48, MakeMagic 'M' 'O' 'D' '0', 0, 0) ∧
    (LoadModule (oneFile "main" shiftedTextFile) storedBlock zeroBeyond "main"
        0x08000000).map (fun r => r.codeset.map (fun cs =>
          (cs.has_mod_header, cs.mod_header.magic, cs.bss_size))) =
      some (some (false, 0, 0x1000)) := by
  set_option maxRecDepth 8000 in
  exact ⟨by decide, by decide, by decide⟩

/-! ## C20 -/

/-- C20 (the code at the failing input): `emptySegmentsFile` passes header validation,
its three segments are empty and located at 0, so the pre-bss image is empty (length 0,
less than 8).  The Metadata Locator runs all the same and takes the self-pointer from
outside the buffer: with zero bytes there it reports no metadata header and bss 0x1000,
with `craftedBeyond` (0x100 at indices 4..7, a MOD0 structure at 0x100) it reports a
metadata header and bss 0x2000. -/
theorem LoadModule_self_pointer_past_buffer :
    (readNsoHeader emptySegmentsFile).isSome = true ∧
    (placeSegments storedBlock emptySegmentsFile
        (decodeNsoHeader (emptySegmentsFile.take 0x6c))).map (fun st => st.1.length) =
      some 0 ∧
    (LoadModule (oneFile "main" emptySegmentsFile) storedBlock zeroBeyond "main"
        0x08000000).map (fun r => r.codeset.map (fun cs => (cs.has_mod_header, cs.bss_size)))
      = some (some (false, 0x1000)) ∧
    (LoadModule (oneFile "main" emptySegmentsFile) storedBlock craftedBeyond "main"
        0x08000000).map (fun r => r.codeset.map (fun cs => (cs.has_mod_header, cs.bss_size)))
      = some (some (true, 0x2000)) := by
  set_option maxRecDepth 8000 in
  exact ⟨by decide, by decide, by decide, by decide⟩

end Nsw
